import Mathlib

/-!
Verification of the `sps` batch spreadsheet editor (src/sps.c) against its
natural-language specification.

The development is a shallow embedding: C byte strings become `List Char`,
the cell/row/table vectors become nested lists holding the sequence of live
elements (a vector's `size` field is the list length; capacities are a
memory-management detail with no observable effect and are not modelled),
C `unsigned int` values become `Nat` with wraparound made explicit where a
negative `int` is converted, C `int` becomes `Int`, and every fallible
operation returns `Except`/`Option`.  Each definition is a direct
transcription of the function of the same name in src/sps.c; comments note
the only places where the C code's behaviour is undefined (out-of-bounds
accesses) and how the model renders them.
-/

namespace SPS

/-- Content of one table cell: the C `Cell` struct's `data`/`size` pair,
i.e. a byte string, modelled as a list of characters. -/
abbrev CellData := List Char

/-- One table row: the live prefix of the C `Row`'s `cells` vector. -/
abbrev Row := List CellData

/-- The table: the live prefix of the C `Table`'s `rows` vector. -/
abbrev Table := List Row

/-- Width of the first row (`table->rows[0]->size`), 0 for a rowless table
(where the C code would read `rows[0]` out of bounds). -/
def headWidth (t : Table) : Nat :=
  match t with
  | [] => 0
  | r :: _ => r.length

/-- Rectangularity: every row has the width of the first row. -/
def isRect (t : Table) : Prop := ∀ r ∈ t, r.length = headWidth t

instance (t : Table) : Decidable (isRect t) := by
  unfold isRect; infer_instance

/-! ### isValidNumber (src/sps.c:2287-2300) -/

/-- Loop body of `isValidNumber`: `i` is the loop counter, `dp` the
`decimalPoint` flag.  The C condition is
`((number[i] < '0' || number[i] > '9') && (i == 0 && (number[i] != '-')))`,
transcribed verbatim: for `i ≠ 0` the conjunct `i == 0 && ...` is false, so
the character is accepted without inspection. -/
def isValidNumberLoop : List Char → Nat → Bool → Bool
  | [], _, _ => true
  | c :: rest, i, dp =>
    if (c < '0' ∨ c > '9') ∧ (i = 0 ∧ c ≠ '-') then
      if c = '.' ∧ dp = false then isValidNumberLoop rest (i + 1) true
      else false
    else isValidNumberLoop rest (i + 1) dp

/-- The numeric-validity predicate used by `min`/`max`, `sum`/`avg`, `inc`
(`isValidNumber` in src/sps.c). -/
def isValidNumber (number : List Char) : Bool :=
  isValidNumberLoop number 0 false

/-- Decimal digit test, `'0' ≤ c ≤ '9'`. -/
def isDigitChar (c : Char) : Bool := decide ('0' ≤ c) && decide (c ≤ '9')

/-- Modelled from the spec: the numeric-validity predicate as the
specification words it — the bytes match `-?[0-9]*\.?[0-9]*` with at most
one `.`, an initial `-` allowed only as the very first byte, and the empty
string not numeric. -/
def specNumeric (s : List Char) : Bool :=
  !s.isEmpty &&
    (let body := if s.head? = some '-' then s.tail else s
     match body.dropWhile isDigitChar with
     | [] => true
     | '.' :: ds => ds.all isDigitChar
     | _ => false)

/-! ### Table primitives -/

/-- `alignRowSizes` first (src/sps.c:960-990) scans for the row with the
most cells; this is the size of that row, a fold of `max` over the row
sizes (the C code keeps the index `biggestRow` of the first widest row and
reads its `size`). -/
def rowMaxWidth (t : Table) : Nat :=
  t.foldl (fun m r => max m r.length) 0

/-- `alignRowSizes` (src/sps.c:960-990): pad every row with fresh empty
cells (`createCell` produces an empty byte string) until all rows match the
widest row. -/
def alignRowSizes (t : Table) : Table :=
  t.map (fun r => r ++ List.replicate (rowMaxWidth t - r.length) [])

/-- `deleteColumnFromTable` (src/sps.c:936-953) with 1-based
`columnNumber`.  For each row the C code frees `cells[columnNumber-1]`,
shifts `cells[j] := cells[j+1]` for `j` from `columnNumber-1` up to
`size-2`, and decrements `size` unconditionally.  For an in-range column
this removes that column; when `columnNumber-1 ≥ size` the shift loop does
not run, yet `size--` still drops the last live cell (the free then touches
a slot beyond the live prefix — out of bounds in C, with no effect on the
live cells).  Both cases are `(take (columnNumber-1) ++ drop columnNumber)`
truncated to `size - 1` elements.  (The C shift bound `size - 1` is an
unsigned subtraction; every call site has `size ≥ 1`.) -/
def deleteColumnFromTable (columnNumber : Nat) (t : Table) : Table :=
  t.map (fun r => ((r.take (columnNumber - 1)) ++ r.drop columnNumber).take (r.length - 1))

/-- Inner loop of `trimRows` (src/sps.c:996-1016): `validColumns` is set to
`j + 1` at every 0-based position `j` holding a non-empty cell, so it ends
as the 1-based index of the row's last non-empty cell (0 if none). -/
def validColumnsLoop : Row → Nat → Nat → Nat
  | [], _, acc => acc
  | c :: rest, j, acc => validColumnsLoop rest (j + 1) (if c.length ≠ 0 then j + 1 else acc)

/-- Per-row result of the first `trimRows` loop. -/
def validColumns (r : Row) : Nat := validColumnsLoop r 0 0

/-- The maximum of `validColumns` over all rows (`mostColumns` in
`trimRows`). -/
def mostColumns (t : Table) : Nat :=
  t.foldl (fun m r => max m (validColumns r)) 0

/-- Second loop of `trimRows`: for `j` from `table->rows[0]->size` down
while `j > mostColumns`, call `deleteColumnFromTable(table, j + 1)`.  Note
the 1-based column `j + 1` is one past the live width at every call (the
rows have `j` cells when the counter is `j`), so each call lands in
`deleteColumnFromTable`'s past-the-end case and drops the last live
column. -/
def trimLoop (m : Nat) : Nat → Table → Table
  | j, t => if m < j then trimLoop m (j - 1) (deleteColumnFromTable (j + 1) t) else t
  termination_by j => j
  decreasing_by omega

/-- `trimRows` (src/sps.c:996-1016): remove the empty columns at the right
edge of the table.  Reads `table->rows[0]->size` as the starting counter,
so the C code requires at least one row. -/
def trimRows (t : Table) : Table :=
  trimLoop (mostColumns t) (headWidth t) t

/-- Modelled from the spec: the 1-based index of a row's last cell with
non-empty content (0 when every cell is empty), phrased as the length of
the row with its trailing empty cells removed. -/
def specLastContent (r : Row) : Nat :=
  (r.reverse.dropWhile (fun c => c.isEmpty)).length

/-- Modelled from the spec: the number of columns `trimRows` keeps — the
maximum of `specLastContent` across rows. -/
def specKeepWidth (t : Table) : Nat :=
  t.foldl (fun m r => max m (specLastContent r)) 0

/-! ### The cell decoder (src/sps.c:440-494) -/

/-- The `SPECIAL_CHARS` string `"\\` of src/sps.c. -/
def SPECIAL_CHARS : List Char := ['"', '\\']

/-- The peeked-character test of the decoder's closing-quote branch
(src/sps.c:459): `nextC == '\n' || strc(delimiters, nextC)`.  At end of
input `getc` yields `EOF`, which is neither `'\n'` nor found by `strchr`
in the delimiter string, so the test is false. -/
def peekCloses (delims rest : List Char) : Bool :=
  match rest.head? with
  | some n => n == '\n' || delims.contains n
  | none => false

/-- The character loop of `loadCellFromFile` (src/sps.c:448-481).  The
input stream is the list of remaining characters (its end is EOF);
`prevC` starts as `'\0'`, `ig` is `ignoreDelimiters`, `acc` the cell
content collected so far (reversed).  The loop consumes characters until
EOF, `'\n'`, or an unquoted delimiter; a `"` after a non-`'\0'`,
non-`'\\'` previous character peeks at the next character (`getc` then
`ungetc`) and demands a delimiter or `'\n'` with quoting open, otherwise
sets `INVALID_INPUT_FORMAT`; other characters are appended unless they are
unescaped special characters.  After the loop, quoting still open is also
`INVALID_INPUT_FORMAT`.  The result carries the cell content and the rest
of the stream starting at the terminating character. -/
def loadCellLoop (delims : List Char) :
    List Char → Char → Bool → List Char → Except Unit (List Char × List Char)
  | [], _, ig, acc =>
    if ig then .error () else .ok (acc.reverse, [])
  | c :: rest, prevC, ig, acc =>
    if c = '\n' ∨ (c ∈ delims ∧ ig = false) then
      if ig then .error () else .ok (acc.reverse, c :: rest)
    else if c = '"' ∧ prevC ≠ '\\' then
      if prevC = '\x00' then loadCellLoop delims rest c true acc
      else
        if peekCloses delims rest ∧ ig = true then
          loadCellLoop delims rest c false acc
        else .error ()
    else if c ∉ SPECIAL_CHARS ∨ prevC = '\\' then
      loadCellLoop delims rest c ig (c :: acc)
    else loadCellLoop delims rest c ig acc

/-- `loadCellFromFile` (src/sps.c:440-494) restricted to its observable
decoding result: the decoded cell content and the rest of the input, or
the `INVALID_INPUT_FORMAT` outcome (surfaced as `MalformedQuoting` by
`main`).  The trailing flag bookkeeping (`LAST_CELL`/`LAST_ROW`) only
routes row/table assembly and is not needed by the claims. -/
def loadCellFromFile (delims input : List Char) : Except Unit (List Char × List Char) :=
  loadCellLoop delims input '\x00' false []

/-- A character that the decoder treats as plain content: not a line feed,
not a delimiter, not one of the special characters, and not `'\0'` (which
the C loop cannot distinguish from the initial `prevC`). -/
def isPlainChar (delims : List Char) (c : Char) : Prop :=
  c ≠ '\n' ∧ c ∉ delims ∧ c ≠ '"' ∧ c ≠ '\\' ∧ c ≠ '\x00'

instance (delims : List Char) (c : Char) : Decidable (isPlainChar delims c) := by
  unfold isPlainChar; infer_instance

/-! ### Selections, variables, commands (src/sps.c:96-184) -/

/-- The `Selection` struct: the live rectangle plus the iteration
cursor. -/
structure Selection where
  rowFrom : Nat
  rowTo : Nat
  colFrom : Nat
  colTo : Nat
  curRow : Nat
  curCol : Nat
deriving DecidableEq

/-- The `Variables` struct: the saved-selection slot `sel`, the ten data
slots `_0`..`_9`, and the floating accumulator `number` (modelled exactly
over `ℚ`). -/
structure Variables where
  sel : Selection
  data : List CellData
  number : ℚ
deriving DecidableEq

/-- The `Command` struct (minus the intrusive `next` pointer; command
sequences are lists).  `type` is `CLASSIC_COMMAND`/`SELECTION_COMMAND`,
the parameter arrays hold 4 slots. -/
structure Command where
  type : Bool
  name : List Char
  intParams : List Int
  strParams : List CellData
deriving DecidableEq

/-- `CLASSIC_COMMAND` (src/sps.c:72): data-manipulation command. -/
def CLASSIC_COMMAND : Bool := true

/-- `SELECTION_COMMAND` (src/sps.c:76): selection-editing command. -/
def SELECTION_COMMAND : Bool := false

/-- `LAST_ROW_COL_NUMBER` (src/sps.c:64): the `_`/`-` sentinel. -/
def LAST_ROW_COL_NUMBER : Int := -1

/-- Reading `cmd->intParams[i]`; slots start at `BAD_ROW_COL_NUMBER`
(= 0, src/sps.c:1209). -/
def getIntParam (cmd : Command) (i : Nat) : Int := cmd.intParams.getD i 0

/-- Reading `cmd->strParams[i]`; slots start as empty strings
(src/sps.c:1213-1220). -/
def getStrParam (cmd : Command) (i : Nat) : CellData := cmd.strParams.getD i []

/-- Distinct error outcomes, one per diagnostic message in src/sps.c.
`nullDeref` stands for the paths where the C code would pass the NULL
returned by `getCellValue` to `strlen`/`strstr`/`isValidNumber`
(undefined behaviour); no claim relies on those paths. -/
inductive Err where
  | unknownCommand
  | badWindowOrder
  | badWindowParams
  | badRC
  | noSavedSelection
  | mustSelectFirst
  | noNumericCells
  | emptyFindString
  | badCellCoords
  | badArgumentCell
  | varNameError
  | nullDeref
deriving DecidableEq

/-- The dispatcher state threaded through every handler: the table, the
live selection, and the temporary variables. -/
structure ExecState where
  table : Table
  sel : Selection
  vars : Variables
deriving DecidableEq

/-- `createSelection` (src/sps.c:1417-1432): the initial live selection
`(1,1,1,1)` with cursor `(0,0)`. -/
def createSelection : Selection :=
  { rowFrom := 1, rowTo := 1, colFrom := 1, colTo := 1, curRow := 0, curCol := 0 }

/-- `createVars` (src/sps.c:1463-1484).  The ten data slots are set to
empty strings and `vars->sel` is obtained from `malloc` WITHOUT any field
initialisation, so its content is indeterminate; the parameter `g` stands
for whatever bytes the allocator happened to return (`gnum` likewise for
the uninitialised `number` field). -/
def createVars (g : Selection) (gnum : ℚ) : Variables :=
  { sel := g, data := List.replicate 10 [], number := gnum }

/-- `updateSelectionBySelection` (src/sps.c:1439-1444): copy the four
rectangle fields, leaving the cursor fields of `sel` untouched. -/
def updateSelectionBySelection (sel pattern : Selection) : Selection :=
  { sel with rowFrom := pattern.rowFrom, rowTo := pattern.rowTo,
             colFrom := pattern.colFrom, colTo := pattern.colTo }

/-- Modelled from the spec: the selection-containment invariant,
`1 ≤ rowFrom ≤ rowTo ≤ rows ∧ 1 ≤ colFrom ≤ colTo ≤ cols`. -/
def selectionContained (sel : Selection) (t : Table) : Prop :=
  1 ≤ sel.rowFrom ∧ sel.rowFrom ≤ sel.rowTo ∧ sel.rowTo ≤ t.length ∧
    1 ≤ sel.colFrom ∧ sel.colFrom ≤ sel.colTo ∧ sel.colTo ≤ headWidth t

instance (sel : Selection) (t : Table) : Decidable (selectionContained sel t) := by
  unfold selectionContained; infer_instance

/-! ### Table access and resizing -/

/-- Conversion of a C `int` value to `unsigned int` (assignment into the
selection fields): reduction modulo `2^32`. -/
def toUns (x : Int) : Nat := (x % (2 ^ 32 : Int)).toNat

/-- Unsigned 32-bit subtraction `a - b` (for `a`, `b` below `2^32`): used
by `getCellValue`, where `size - 1` wraps around for `size = 0`. -/
def u32sub (a b : Nat) : Nat := (a + 2 ^ 32 - b) % 2 ^ 32

/-- `getCellValue` (src/sps.c:1167-1177): NULL (= `none`) when the
unsigned comparisons `size-1 < row-1` or `rows[0]->size-1 < col-1` hold;
otherwise the cell bytes.  When the guard passes but the indexed row is
shorter than row 0 the C code reads out of bounds; the model returns
`none` there. -/
def getCellValue (t : Table) (row col : Nat) : Option CellData :=
  if u32sub t.length 1 < u32sub row 1 ∨ u32sub (headWidth t) 1 < u32sub col 1 then none
  else (t.getD (row - 1) [])[col - 1]?

/-- `setCellValue` (src/sps.c:1135-1158): replace the content of cell
`(row, col)` (1-based).  The C code indexes without a bounds check
(undefined out of range); the model leaves the table unchanged there.
Call sites with `row = 0` or `col = 0` would be undefined in C as well
(the 1-based index wraps); they do not occur in the program. -/
def setCellValue (t : Table) (row col : Nat) (v : CellData) : Table :=
  t.set (row - 1) ((t.getD (row - 1) []).set (col - 1) v)

/-- `addRowToTable` (src/sps.c:772-800): insert a row before 1-based
`position` (`position = size + 1` appends).  A position beyond `size + 1`
would write out of bounds in C; the model leaves the table unchanged. -/
def addRowToTable (t : Table) (row : Row) (position : Nat) : Table :=
  t.insertIdx (position - 1) row

/-- `addColumnToTable` (src/sps.c:808-830): insert a fresh empty cell at
1-based `position` of every row. -/
def addColumnToTable (t : Table) (position : Nat) : Table :=
  t.map (fun r => r.insertIdx (position - 1) [])

/-- `deleteRowFromTable` (src/sps.c:915-929): destruct `rows[position-1]`,
shift the later rows down, decrement `size`.  As with
`deleteColumnFromTable`, the decrement is unconditional, so a past-the-end
position still drops the last live row (out of bounds in C). -/
def deleteRowFromTable (position : Nat) (t : Table) : Table :=
  ((t.take (position - 1)) ++ t.drop position).take (t.length - 1)

/-- `resizeTable` (src/sps.c:1026-1067): grow-only resize.  Missing cells
are appended to the first row (the C code reads `rows[0]`, so a rowless
table would be out of bounds), missing rows are appended empty, and
`alignRowSizes` distributes the new width. -/
def resizeTable (t : Table) (rows columns : Nat) : Table :=
  let t1 : Table :=
    match t with
    | [] => []
    | r0 :: rest => (r0 ++ List.replicate (columns - r0.length) []) :: rest
  alignRowSizes (t1 ++ List.replicate (rows - t1.length) [])

/-- Modelled from the spec: grow-only resize in one step — every existing
row keeps its cells and is padded on the right to the new width, and empty
rows of the new width are appended until the new height; dimensions are
the pointwise maxima, never smaller. -/
def specGrow (t : Table) (rows columns : Nat) : Table :=
  t.map (fun r => r ++ List.replicate (max (headWidth t) columns - headWidth t) []) ++
    List.replicate (rows - t.length) (List.replicate (max (headWidth t) columns) [])

/-! ### Selection commands (src/sps.c:1515-1729) -/

/-- Body of `windowSelect` (src/sps.c:1592-1626) after the parameter
aliases: the order check `row > rowSecond || col > colSecond` runs on the
raw `int` parameters (`_` already encoded as −1), then the mixed-zero
check, then the four fields are assigned, resolving `_` to the last
row/column only in the `rowTo`/`colTo` slots. -/
def windowCore (p0 p1 p2 p3 : Int) (t : Table) (sel : Selection) : Except Err Selection :=
  if p2 < p0 ∨ p3 < p1 then .error .badWindowOrder
  else if (p2 ≠ 0 ∧ p3 = 0) ∨ (p2 = 0 ∧ p3 ≠ 0) then .error .badWindowParams
  else .ok { sel with
    rowFrom := toUns p0,
    rowTo := if p2 ≠ -1 then toUns p2 else t.length,
    colFrom := toUns p1,
    colTo := if p3 ≠ -1 then toUns p3 else headWidth t }

/-- Body of `standardSelect` (src/sps.c:1515-1582) after the parameter
aliases: the `[_]` restore branch (returning before any resize), the
`row == 0 || col == 0` rejection, delegation to `windowCore` when both
second-pair parameters are non-zero, the `[R,C]` assignment otherwise, and
the two grow-only resize calls guarded by `rowTo > size` and
`colTo > rows[0]->size`. -/
def selectCore (p0 p1 p2 p3 : Int) (t : Table) (sel : Selection) (vars : Variables) :
    Except Err (Table × Selection) :=
  if p0 = -1 ∧ p1 = 0 then
    if vars.sel.rowFrom = 0 then .error .noSavedSelection
    else .ok (t, updateSelectionBySelection sel vars.sel)
  else if p0 = 0 ∨ p1 = 0 then .error .badRC
  else
    let selStep : Except Err Selection :=
      if p2 ≠ 0 ∧ p3 ≠ 0 then windowCore p0 p1 p2 p3 t sel
      else .ok { sel with
        rowFrom := if p0 ≠ -1 then toUns p0 else 1,
        rowTo := if p0 ≠ -1 then toUns p0 else t.length,
        colFrom := if p1 ≠ -1 then toUns p1 else 1,
        colTo := if p1 ≠ -1 then toUns p1 else headWidth t }
    match selStep with
    | .error e => .error e
    | .ok sel2 =>
      let t1 := if t.length < sel2.rowTo then resizeTable t sel2.rowTo (headWidth t) else t
      let t2 := if headWidth t1 < sel2.colTo then resizeTable t1 t1.length sel2.colTo else t1
      .ok (t2, sel2)

/-! ### Command handlers (src/sps.c:1515-2280)

Every handler has the C signature `(cmd, table, sel, vars) → ErrorInfo`
with in-place mutation; the model passes the whole `ExecState` and returns
the new one (or the error).  `strtod` conversion of cell text to a double
and `sprintf("%g", ·)` rendering of a double are the two places where C
floating-point text conversion enters; the embedding keeps the numeric
domain exact (`ℚ`) and abstracts the two conversions as parameters
`strtod` and `fmtG`, threaded through the handlers that use them. -/

/-- Handler signature: a command applied to the dispatcher state. -/
abbrev Handler : Type := Command → ExecState → Except Err ExecState

/-- `standardSelect` (src/sps.c:1515-1582) as a handler: read the four
`int` parameters and run `selectCore`. -/
def standardSelect : Handler := fun cmd st =>
  match selectCore (getIntParam cmd 0) (getIntParam cmd 1) (getIntParam cmd 2)
      (getIntParam cmd 3) st.table st.sel st.vars with
  | .error e => .error e
  | .ok (t, sel) => .ok { st with table := t, sel := sel }

/-- `windowSelect` (src/sps.c:1592-1626) as a handler (it is reachable
only through `standardSelect`, never from the catalog). -/
def windowSelect : Handler := fun cmd st =>
  match windowCore (getIntParam cmd 0) (getIntParam cmd 1) (getIntParam cmd 2)
      (getIntParam cmd 3) st.table st.sel with
  | .error e => .error e
  | .ok sel => .ok { st with sel := sel }

/-- Search loop of `minMaxSelect` (src/sps.c:1660-1673): row-major walk
over the given cells, keeping the coordinates and value of the current
extremum.  The update condition transcribes
`coords.row == -1 || (name = "min" ∧ number < best) ∨ (name = "max" ∧
number > best)`. -/
def minMaxLoop (strtod : List Char → ℚ) (name : List Char) (t : Table) :
    List (Nat × Nat) → Option ((Nat × Nat) × ℚ) → Except Err (Option ((Nat × Nat) × ℚ))
  | [], best => .ok best
  | (i, j) :: rest, best =>
    match getCellValue t i j with
    | none => .error .nullDeref
    | some v =>
      if isValidNumber v then
        let q := strtod v
        match best with
        | none => minMaxLoop strtod name t rest (some ((i, j), q))
        | some (bc, bq) =>
          if (name = "min".toList ∧ q < bq) ∨ (name = "max".toList ∧ bq < q) then
            minMaxLoop strtod name t rest (some ((i, j), q))
          else minMaxLoop strtod name t rest (some (bc, bq))
      else minMaxLoop strtod name t rest best

/-- The row-major list of coordinates of the current selection, `r` from
`rowFrom` to `rowTo` outermost, `c` from `colFrom` to `colTo`. -/
def natRange (a b : Nat) : List Nat := List.range' a (b + 1 - a)

/-- Coordinates `(r, c)` of the selection in row-major order. -/
def rowMajorCells (sel : Selection) : List (Nat × Nat) :=
  (natRange sel.rowFrom sel.rowTo).flatMap
    (fun i => (natRange sel.colFrom sel.colTo).map (fun j => (i, j)))

/-- `minMaxSelect` (src/sps.c:1636-1690): reject when `rowFrom = 0`, walk
the selection for the extremal numeric cell, reject when none is numeric,
else shrink the selection to that cell. -/
def minMaxSelect (strtod : List Char → ℚ) : Handler := fun cmd st =>
  if st.sel.rowFrom = 0 then .error .mustSelectFirst
  else
    match minMaxLoop strtod cmd.name st.table (rowMajorCells st.sel) none with
    | .error e => .error e
    | .ok none => .error .noNumericCells
    | .ok (some ((i, j), _)) =>
      .ok { st with sel := { st.sel with rowFrom := i, rowTo := i, colFrom := j, colTo := j } }

/-- Substring test standing for `strstr(hay, needle) != NULL`. -/
def strContains (hay needle : List Char) : Bool :=
  (List.range (hay.length + 1)).any (fun k => needle.isPrefixOf (hay.drop k))

/-- Search loop of `findSelect` (src/sps.c:1715-1726): first cell of the
selection, in row-major order, whose content contains the needle. -/
def findLoop (needle : List Char) (t : Table) :
    List (Nat × Nat) → Except Err (Option (Nat × Nat))
  | [] => .ok none
  | (i, j) :: rest =>
    match getCellValue t i j with
    | none => .error .nullDeref
    | some v => if strContains v needle then .ok (some (i, j)) else findLoop needle t rest

/-- `findSelect` (src/sps.c:1700-1729): reject an empty needle, shrink the
selection to the first matching cell, leave it unchanged when nothing
matches. -/
def findSelect : Handler := fun cmd st =>
  if getStrParam cmd 0 = [] then .error .emptyFindString
  else
    match findLoop (getStrParam cmd 0) st.table (rowMajorCells st.sel) with
    | .error e => .error e
    | .ok none => .ok st
    | .ok (some (i, j)) =>
      .ok { st with sel := { st.sel with rowFrom := i, rowTo := i, colFrom := j, colTo := j } }

/-- `irow` (src/sps.c:1739-1764): insert an empty row before `curRow`,
then re-align. -/
def irow : Handler := fun _ st =>
  .ok { st with table := alignRowSizes (addRowToTable st.table [] st.sel.curRow) }

/-- `arow` (src/sps.c:1774-1799): insert an empty row after `curRow`,
then re-align. -/
def arow : Handler := fun _ st =>
  .ok { st with table := alignRowSizes (addRowToTable st.table [] (st.sel.curRow + 1)) }

/-- `drow` (src/sps.c:1809-1820): delete row `curRow`. -/
def drow : Handler := fun _ st =>
  .ok { st with table := deleteRowFromTable st.sel.curRow st.table }

/-- `icol` (src/sps.c:1830-1843): insert an empty column before
`curCol`. -/
def icol : Handler := fun _ st =>
  .ok { st with table := addColumnToTable st.table st.sel.curCol }

/-- `acol` (src/sps.c:1853-1866): insert an empty column after
`curCol`. -/
def acol : Handler := fun _ st =>
  .ok { st with table := addColumnToTable st.table (st.sel.curCol + 1) }

/-- `dcol` (src/sps.c:1876-1887): delete column `curCol`. -/
def dcol : Handler := fun _ st =>
  .ok { st with table := deleteColumnFromTable st.sel.curCol st.table }

/-- `setEdit` (src/sps.c:1897-1909): write the first string parameter to
the current cell. -/
def setEdit : Handler := fun cmd st =>
  .ok { st with table := setCellValue st.table st.sel.curRow st.sel.curCol (getStrParam cmd 0) }

/-- `clearEdit` (src/sps.c:1919-1932): write the empty string to the
current cell. -/
def clearEdit : Handler := fun _ st =>
  .ok { st with table := setCellValue st.table st.sel.curRow st.sel.curCol [] }

/-- `swapEdit` (src/sps.c:1942-1989): exchange the current cell with the
argument cell; `[R,C]` must be positive and inside the table. -/
def swapEdit : Handler := fun cmd st =>
  let argRow := getIntParam cmd 0
  let argCol := getIntParam cmd 1
  if argRow < 1 ∨ argCol < 1 then .error .badCellCoords
  else
    match getCellValue st.table st.sel.curRow st.sel.curCol with
    | none => .error .nullDeref
    | some selCell =>
      match getCellValue st.table argRow.toNat argCol.toNat with
      | none => .error .badArgumentCell
      | some argCell =>
        let t1 := setCellValue st.table st.sel.curRow st.sel.curCol argCell
        let t2 := setCellValue t1 argRow.toNat argCol.toNat selCell
        .ok { st with table := t2 }

/-- `sumAvgEdit` (src/sps.c:1999-2046): per-cell step of `sum [R,C]` and
`avg [R,C]` — zero the accumulator on the first iteration of the
selection, add the cell's numeric value when it is numeric (return early
otherwise), and on the last iteration divide by the selection area for
`avg` and write the `%g` rendering to `(R,C)`. -/
def sumAvgEdit (strtod : List Char → ℚ) (fmtG : ℚ → List Char) : Handler := fun cmd st =>
  let argRow := getIntParam cmd 0
  let argCol := getIntParam cmd 1
  if argRow < 1 ∨ argCol < 1 then .error .badCellCoords
  else
    let vars1 :=
      if st.sel.curRow = st.sel.rowFrom ∧ st.sel.curCol = st.sel.colFrom then
        { st.vars with number := 0 }
      else st.vars
    match getCellValue st.table st.sel.curRow st.sel.curCol with
    | none => .error .nullDeref
    | some selCell =>
      if isValidNumber selCell = false then .ok { st with vars := vars1 }
      else
        let vars2 := { vars1 with number := vars1.number + strtod selCell }
        if st.sel.curRow = st.sel.rowTo ∧ st.sel.curCol = st.sel.colTo then
          let result :=
            if cmd.name = "avg".toList then
              vars2.number /
                (((st.sel.rowTo - st.sel.rowFrom + 1) * (st.sel.colTo - st.sel.colFrom + 1) :
                  Nat) : ℚ)
            else vars2.number
          let vars3 := { vars2 with number := result }
          .ok { st with
            table := setCellValue st.table argRow.toNat argCol.toNat (fmtG result),
            vars := vars3 }
        else .ok { st with vars := vars2 }

/-- Decimal rendering of an `int` (`sprintf("%d", ·)`). -/
def intToDecimal (n : Int) : List Char := (toString n).toList

/-- `strtol(s, NULL, 10)`: skip `isspace` characters, read an optional
sign, then a run of decimal digits (0 when there are none).  Overflow
clamping is not modelled; no claim involves out-of-range literals. -/
def strtolInt (s : List Char) : Int :=
  let s1 := s.dropWhile (fun c =>
    c == ' ' || c == '\t' || c == '\n' || c == '\x0b' || c == '\x0c' || c == '\x0d')
  let core : List Char → Nat := fun digits =>
    (digits.takeWhile isDigitChar).foldl (fun acc c => acc * 10 + (c.toNat - '0'.toNat)) 0
  match s1 with
  | '-' :: rest => -(core rest : Int)
  | '+' :: rest => (core rest : Int)
  | rest => (core rest : Int)

/-- `countEdit` (src/sps.c:2056-2104): write `"0"` to `(R,C)` on the first
iteration, then increment the number stored at `(R,C)` whenever the
current cell is non-empty. -/
def countEdit : Handler := fun cmd st =>
  let argRow := getIntParam cmd 0
  let argCol := getIntParam cmd 1
  if argRow < 1 ∨ argCol < 1 then .error .badCellCoords
  else
    let t1 :=
      if st.sel.curRow = st.sel.rowFrom ∧ st.sel.curCol = st.sel.colFrom then
        setCellValue st.table argRow.toNat argCol.toNat ['0']
      else st.table
    match getCellValue t1 st.sel.curRow st.sel.curCol with
    | none => .error .nullDeref
    | some selCell =>
      if selCell = [] then .ok { st with table := t1 }
      else
        match getCellValue t1 argRow.toNat argCol.toNat with
        | none => .error .badArgumentCell
        | some argCell =>
          let t2 := setCellValue t1 argRow.toNat argCol.toNat (intToDecimal (strtolInt argCell + 1))
          .ok { st with table := t2 }

/-- `lenEdit` (src/sps.c:2114-2142): write the byte length of the current
cell to `(R,C)`. -/
def lenEdit : Handler := fun cmd st =>
  let argRow := getIntParam cmd 0
  let argCol := getIntParam cmd 1
  if argRow < 1 ∨ argCol < 1 then .error .badCellCoords
  else
    match getCellValue st.table st.sel.curRow st.sel.curCol with
    | none => .error .nullDeref
    | some selCell =>
      let t1 := setCellValue st.table argRow.toNat argCol.toNat (intToDecimal (selCell.length : Int))
      .ok { st with table := t1 }

/-- The `_d` parameter check shared by `def`/`use`/`inc`
(src/sps.c:2156, 2194, 2231): first byte `'_'`, second a digit, third the
terminating NUL. -/
def varParamOk (p : List Char) : Bool :=
  p.getD 0 '\x00' == '_' && isDigitChar (p.getD 1 '\x00') && p.getD 2 '\x00' == '\x00'

/-- The slot index encoded in a `_d` parameter. -/
def varNumberOf (p : List Char) : Nat := (p.getD 1 '0').toNat - '0'.toNat

/-- `defVars` (src/sps.c:2152-2180): copy the current cell into slot
`d`. -/
def defVars : Handler := fun cmd st =>
  if varParamOk (getStrParam cmd 0) = false then .error .varNameError
  else
    match getCellValue st.table st.sel.curRow st.sel.curCol with
    | none => .error .nullDeref
    | some v =>
      .ok { st with vars :=
        { st.vars with data := st.vars.data.set (varNumberOf (getStrParam cmd 0)) v } }

/-- `useVars` (src/sps.c:2190-2213): write slot `d` into the current
cell. -/
def useVars : Handler := fun cmd st =>
  if varParamOk (getStrParam cmd 0) = false then .error .varNameError
  else
    let t1 := setCellValue st.table st.sel.curRow st.sel.curCol
      (st.vars.data.getD (varNumberOf (getStrParam cmd 0)) [])
    .ok { st with table := t1 }

/-- `incVars` (src/sps.c:2223-2259): parse slot `d` with `strtod`, add 1,
store the `%g` rendering back. -/
def incVars (strtod : List Char → ℚ) (fmtG : ℚ → List Char) : Handler := fun cmd st =>
  if varParamOk (getStrParam cmd 0) = false then .error .varNameError
  else
    let n := varNumberOf (getStrParam cmd 0)
    .ok { st with vars :=
      { st.vars with data := st.vars.data.set n (fmtG (strtod (st.vars.data.getD n []) + 1)) } }

/-- `setVars` (src/sps.c:2269-2280): the selection-context `set` (renamed
`set-v` by the parser) — back up the live selection's rectangle into
`vars->sel` (the cursor fields of the saved slot are not written). -/
def setVars : Handler := fun _ st =>
  .ok { st with vars := { st.vars with sel := updateSelectionBySelection st.vars.sel st.sel } }

/-! ### The dispatcher (src/sps.c:1331-1411) -/

/-- The `names` array of `processCommands` (src/sps.c:1335-1338). -/
def commandNames : List (List Char) :=
  ["select", "min", "max", "find", "irow", "arow", "drow", "icol", "acol", "dcol", "set",
   "clear", "swap", "sum", "avg", "count", "len", "def", "use", "inc", "set-v"].map
    String.toList

/-- The `functions` array of `processCommands` (src/sps.c:1339-1342),
aligned with `commandNames`. -/
def commandFunctions (strtod : List Char → ℚ) (fmtG : ℚ → List Char) : List Handler :=
  [standardSelect, minMaxSelect strtod, minMaxSelect strtod, findSelect, irow, arow, drow,
   icol, acol, dcol, setEdit, clearEdit, swapEdit, sumAvgEdit strtod fmtG,
   sumAvgEdit strtod fmtG, countEdit, lenEdit, defVars, useVars, incVars strtod fmtG, setVars]

/-- The dispatcher's name→handler table: the C code scans `names` for the
first `streq` match and calls `functions` at that index; pairing the two
arrays makes this a `find?` over the zipped list. -/
def commandCatalog (strtod : List Char → ℚ) (fmtG : ℚ → List Char) : List (List Char × Handler) :=
  commandNames.zip (commandFunctions strtod fmtG)

/-- Inner `for j` loop of the mutation dispatch (src/sps.c:1390-1398):
for each column, set the cursor, invoke the handler, stop at the first
error.  The C loop re-reads `sel->colTo` at every test; no handler writes
the selection bounds, so the column list is computed at loop entry. -/
def mutColsLoop (h : ExecState → Except Err ExecState) (i : Nat) :
    List Nat → ExecState → Except Err ExecState
  | [], st => .ok st
  | j :: js, st =>
    let st1 := { st with sel := { st.sel with curRow := i, curCol := j } }
    match h st1 with
    | .error e => .error e
    | .ok st2 => mutColsLoop h i js st2

/-- Outer `for i` loop of the mutation dispatch (src/sps.c:1389-1399).
As with the columns, the row bounds are those read at loop entry. -/
def mutRowsLoop (h : ExecState → Except Err ExecState) (colFrom colTo : Nat) :
    List Nat → ExecState → Except Err ExecState
  | [], st => .ok st
  | i :: is, st =>
    match mutColsLoop h i (natRange colFrom colTo) st with
    | .error e => .error e
    | .ok st2 => mutRowsLoop h colFrom colTo is st2

/-- One step of `processCommands` (src/sps.c:1363-1400): look the command
name up in the catalog (`UnknownCommand` when absent), then run the
handler once for a selection command, or once per selected cell in
row-major order for a classic command. -/
def applyCommand (catalog : List (List Char × Handler)) (cmd : Command) (st : ExecState) :
    Except Err ExecState :=
  match catalog.find? (fun e => e.1 == cmd.name) with
  | none => .error .unknownCommand
  | some (_, h) =>
    if cmd.type = SELECTION_COMMAND then h cmd st
    else mutRowsLoop (h cmd) st.sel.colFrom st.sel.colTo
      (natRange st.sel.rowFrom st.sel.rowTo) st

/-- The command walk of `processCommands` (src/sps.c:1362-1404): apply
each command in order, stopping at (and surfacing) the first error. -/
def processCommands (catalog : List (List Char × Handler)) :
    List Command → ExecState → Except Err ExecState
  | [], st => .ok st
  | cmd :: rest, st =>
    match applyCommand catalog cmd st with
    | .error e => .error e
    | .ok st2 => processCommands catalog rest st2

/-- `processCommands` from its entry point (src/sps.c:1331-1361): the
fresh live selection from `createSelection` and the variables from
`createVars` (whose saved-selection slot and accumulator are
uninitialised memory, here `g` and `gnum`). -/
def processCommandsFull (catalog : List (List Char × Handler)) (cmds : List Command)
    (table : Table) (g : Selection) (gnum : ℚ) : Except Err ExecState :=
  processCommands catalog cmds { table := table, sel := createSelection, vars := createVars g gnum }

/-- Modelled from the spec: the dispatcher's per-cell iteration as the
specification words it — one invocation per cell of the row-major list,
the cursor set to the cell before the invocation, stopping at the first
error. -/
def runCells (g : Nat → Nat → ExecState → Except Err ExecState) :
    List (Nat × Nat) → ExecState → Except Err ExecState
  | [], st => .ok st
  | (i, j) :: rest, st =>
    match g i j st with
    | .error e => .error e
    | .ok st2 => runCells g rest st2

/-! ### The script parser (src/sps.c:502-632) -/

/-- `createCmd` (src/sps.c:1200-1223): a fresh command record — type
`CLASSIC_COMMAND`, name all NUL (the empty string), the four `intParams`
at `BAD_ROW_COL_NUMBER` (0), the four `strParams` empty. -/
def createCmd : Command :=
  { type := CLASSIC_COMMAND, name := [], intParams := List.replicate 4 0,
    strParams := List.replicate 4 [] }

/-- `addNewCmdToSeq` (src/sps.c:1230-1250): append the command, renaming
a selection-typed `set` to `set-v` first. -/
def addNewCmdToSeq (seq : List Command) (cmd : Command) : List Command :=
  let cmd2 :=
    if cmd.name = "set".toList ∧ cmd.type = SELECTION_COMMAND then
      { cmd with name := "set-v".toList }
    else cmd
  seq ++ [cmd2]

/-- The parser's buffer writes `buf[cmdI] = c; buf[cmdI + 1] = '\0'`
(src/sps.c:567-568, 616-617): the string becomes the first `cmdI` old
characters followed by `c`. -/
def writeAt (buf : List Char) (i : Nat) (c : Char) : List Char := buf.take i ++ [c]

/-- The lookbehind `string[i - 1]` (src/sps.c:527, 600); at `i = 0` the C
code reads before the buffer (undefined); the model yields NUL there. -/
def prevCharAt (s : List Char) (i : Nat) : Char :=
  if i = 0 then '\x00' else s.getD (i - 1) '\x00'

/-- The bracket-parameter loop of `loadCommandsFromString`
(src/sps.c:548-572): from position `j`, consume characters until `]` or
`;`, bumping `paramI` at `,` and writing other characters into
`strParams[paramI - 1]` at offset `cmdI` (never incremented here, so a
multi-character item keeps only its last character — faithful to the C).
The result is the offset of the stopping character together with the
final `cmdI`, `paramI` and parameter array; `none` models the C loop
running past the string's terminating NUL (undefined behaviour).
A slot write with `paramI - 1 ≥ 4` is out of bounds in C; the model's
`List.set` leaves the array unchanged there.  The first argument is
recursion fuel: every step advances `j`, so the fuel `n + 1` passed by
the caller can never run out before the `n ≤ j` exit fires. -/
def bracketLoop (s : List Char) (n : Nat) :
    Nat → Nat → Nat → Nat → List CellData → Option (Nat × Nat × Nat × List CellData)
  | 0, _, _, _, _ => none
  | fuel + 1, j, cmdI, paramI, ps =>
    if n ≤ j then none
    else
      let c := s.getD j '\x00'
      if c = ']' ∨ c = ';' then some (0, cmdI, paramI, ps)
      else if c = ',' then
        (bracketLoop s n fuel (j + 1) 0 (paramI + 1) ps).map (fun r => (r.1 + 1, r.2))
      else
        (bracketLoop s n fuel (j + 1) cmdI paramI
          (ps.set (paramI - 1) (writeAt (ps.getD (paramI - 1) []) cmdI c))).map
          (fun r => (r.1 + 1, r.2))

/-- The character loop of `loadCommandsFromString` (src/sps.c:516-623),
transcribed branch for branch: `;` closes the command; an unescaped
space advances `paramI`; `[` followed by a digit or `_` at `cmdI = 0`
enters the bracket loop (setting name `select`, type selection and
`paramI = 1` when the command has no name yet), aborting when the
bracket loop stops at `;`; a `]` before space/`;`/end is skipped; with
`paramI = 0` a `[` sets the selection type and other characters extend
the name; with `paramI ≥ 1` an unescaped `\` is skipped and other
characters extend the current parameter.  The first argument after `n`
is recursion fuel: every step advances `i` by at least one, so the fuel
`n + 1` passed by `loadCommandsFromString` can never run out before the
`n ≤ i` exit fires. -/
def parseLoop (s : List Char) (n : Nat) :
    Nat → Nat → Command → Nat → Nat → List Command → Option (List Command)
  | 0, _, _, _, _, _ => none
  | fuel + 1, i, cmd, cmdI, paramI, seq =>
    if n ≤ i then some (addNewCmdToSeq seq cmd)
    else
      let c := s.getD i '\x00'
      if c = ';' then
        parseLoop s n fuel (i + 1) createCmd 0 0 (addNewCmdToSeq seq cmd)
      else if c = ' ' ∧ prevCharAt s i ≠ '\\' then
        parseLoop s n fuel (i + 1) cmd 0 (paramI + 1) seq
      else if cmdI = 0 ∧ c = '[' ∧
          (isDigitChar (s.getD (i + 1) '\x00') ∨ s.getD (i + 1) '\x00' = '_') then
        let cmd1 :=
          if paramI = 0 then
            { cmd with type := SELECTION_COMMAND, name := "select".toList }
          else cmd
        let paramI1 := if paramI = 0 then 1 else paramI
        match bracketLoop s n (n + 1) (i + 1) cmdI paramI1 cmd1.strParams with
        | none => none
        | some (k, cmdI2, paramI2, ps2) =>
          if s.getD (i + 1 + k) '\x00' = ';' then none
          else
            parseLoop s n fuel (i + 1 + k + 1) { cmd1 with strParams := ps2 } cmdI2 paramI2 seq
      else if c = ']' ∧ (s.getD (i + 1) '\x00' = ' ' ∨ s.getD (i + 1) '\x00' = ';' ∨
          s.getD (i + 1) '\x00' = '\x00') then
        parseLoop s n fuel (i + 1) cmd cmdI paramI seq
      else if paramI = 0 then
        if cmdI = 0 ∧ c = '[' then
          parseLoop s n fuel (i + 1) { cmd with type := SELECTION_COMMAND } cmdI paramI seq
        else
          parseLoop s n fuel (i + 1) { cmd with name := writeAt cmd.name cmdI c }
            (cmdI + 1) paramI seq
      else if c = '\\' ∧ prevCharAt s i ≠ '\\' then
        parseLoop s n fuel (i + 1) cmd cmdI paramI seq
      else
        let ps2 := cmd.strParams.set (paramI - 1)
          (writeAt (cmd.strParams.getD (paramI - 1) []) cmdI c)
        parseLoop s n fuel (i + 1) { cmd with strParams := ps2 } (cmdI + 1) paramI seq

/-- `convertTypesInCommandParams` on one command (src/sps.c:1256-1271):
slot by slot, `_`/`-` become the LAST sentinel −1, a string `strtol`
parses to non-zero becomes that value, anything else leaves the slot at
its initial 0. -/
def convertParams (cmd : Command) : Command :=
  { cmd with intParams :=
      (List.range 4).map (fun idx =>
        let sp := cmd.strParams.getD idx []
        if sp = "_".toList ∨ sp = "-".toList then LAST_ROW_COL_NUMBER
        else if strtolInt sp ≠ 0 then strtolInt sp
        else cmd.intParams.getD idx 0) }

/-- `convertTypesInCommandParams` (src/sps.c:1256-1271) over the whole
sequence. -/
def convertTypesInCommandParams (cmds : List Command) : List Command :=
  cmds.map convertParams

/-- `loadCommandsFromString` (src/sps.c:502-632): run the character loop
from position 0 with a fresh command and empty sequence (the final
command is appended by the loop's end-of-string exit), then convert the
parameter types.  `none` is the `INVALID_INPUT_FORMAT` outcome
(`MalformedScript`). -/
def loadCommandsFromString (s : List Char) : Option (List Command) :=
  match parseLoop s s.length (s.length + 1) 0 createCmd 0 0 [] with
  | none => none
  | some cmds => some (convertTypesInCommandParams cmds)

/-- The output-saving decision of `main` (src/sps.c:258-361): the file is
reopened for writing and `saveTableToFile` runs only after
`loadCommandsFromString` and `processCommands` both succeed; any error
returns from `main` first.  (File-open and allocation failures, which
also suppress the write, are outside the model.) -/
def mainWritesFile (catalog : List (List Char × Handler)) (script : List Char)
    (table : Table) (g : Selection) (gnum : ℚ) : Bool :=
  match loadCommandsFromString script with
  | none => false
  | some cmds =>
    match processCommands catalog cmds
        { table := table, sel := createSelection, vars := createVars g gnum } with
    | .error _ => false
    | .ok _ => true

/-! ### Facts about isValidNumber (claim C1) -/

/-- C1: the numeric-validity predicate of the code ignores every byte after
the first.  The spec's predicate (`-?[0-9]*\.?[0-9]*`, empty not numeric)
rejects `"1x"`, `"1.2.3"` and `""`, but `isValidNumber` accepts all three:
its loop condition `(non-digit) && (i == 0 && c != '-')` is false at every
position `i ≠ 0`, so only the first byte is checked. -/
theorem isValidNumber_first_byte_only :
    isValidNumber ['1', 'x'] = true ∧ specNumeric ['1', 'x'] = false ∧
    isValidNumber ['1', '.', '2', '.', '3'] = true ∧
    specNumeric ['1', '.', '2', '.', '3'] = false ∧
    isValidNumber [] = true ∧ specNumeric [] = false := by
  decide

/-! ### Facts about alignRowSizes (claim C9) -/

theorem init_le_foldl_max {α : Type} (f : α → Nat) :
    ∀ (l : List α) (b : Nat), b ≤ l.foldl (fun m r => max m (f r)) b := by
  intro l
  induction l with
  | nil => intro b; exact le_refl b
  | cons a l ih =>
    intro b
    calc b ≤ max b (f a) := le_max_left _ _
      _ ≤ _ := ih (max b (f a))

theorem le_foldl_max {α : Type} (f : α → Nat) :
    ∀ (l : List α) (b : Nat) (x : α), x ∈ l → f x ≤ l.foldl (fun m r => max m (f r)) b := by
  intro l
  induction l with
  | nil => intro b x hx; cases hx
  | cons a l ih =>
    intro b x hx
    rcases List.mem_cons.mp hx with hx | hx
    · subst hx
      calc f x ≤ max b (f x) := le_max_right _ _
        _ ≤ _ := init_le_foldl_max f l (max b (f x))
    · exact ih (max b (f a)) x hx

theorem foldl_max_le {α : Type} (f : α → Nat) :
    ∀ (l : List α) (b k : Nat), b ≤ k → (∀ x ∈ l, f x ≤ k) →
      l.foldl (fun m r => max m (f r)) b ≤ k := by
  intro l
  induction l with
  | nil => intro b k hb _; simpa using hb
  | cons a l ih =>
    intro b k hb h
    exact ih _ _ (max_le hb (h a (by simp))) (fun x hx => h x (by simp [hx]))

theorem length_le_rowMaxWidth {t : Table} {r : Row} (h : r ∈ t) :
    r.length ≤ rowMaxWidth t :=
  le_foldl_max List.length t 0 r h

theorem rowMaxWidth_alignRowSizes (t : Table) :
    rowMaxWidth (alignRowSizes t) = rowMaxWidth t := by
  apply le_antisymm
  · apply foldl_max_le _ _ _ _ (Nat.zero_le _)
    intro r hr
    rcases List.mem_map.mp hr with ⟨r₀, hr₀, rfl⟩
    have := length_le_rowMaxWidth hr₀
    simp [List.length_append, List.length_replicate]
    omega
  · apply foldl_max_le _ _ _ _ (Nat.zero_le _)
    intro r hr
    have h1 : (r ++ List.replicate (rowMaxWidth t - r.length) []) ∈ alignRowSizes t :=
      List.mem_map.mpr ⟨r, hr, rfl⟩
    have h2 := le_foldl_max List.length (alignRowSizes t) 0 _ h1
    calc r.length ≤ (r ++ List.replicate (rowMaxWidth t - r.length) []).length := by simp
      _ ≤ _ := h2

theorem length_mem_alignRowSizes {t : Table} {r : Row} (h : r ∈ alignRowSizes t) :
    r.length = rowMaxWidth t := by
  rcases List.mem_map.mp h with ⟨r₀, hr₀, rfl⟩
  have := length_le_rowMaxWidth hr₀
  simp [List.length_append, List.length_replicate]
  omega

/-- C9: `alignRowSizes` is idempotent — applying it a second time adds no
cells. -/
theorem alignRowSizes_idempotent (t : Table) :
    alignRowSizes (alignRowSizes t) = alignRowSizes t := by
  have step : alignRowSizes (alignRowSizes t) =
      (alignRowSizes t).map
        (fun r => r ++ List.replicate (rowMaxWidth (alignRowSizes t) - r.length) []) := rfl
  rw [step, rowMaxWidth_alignRowSizes]
  have hpt : ∀ r ∈ alignRowSizes t,
      r ++ List.replicate (rowMaxWidth t - r.length) [] = id r := by
    intro r hr
    rw [length_mem_alignRowSizes hr]
    simp
  rw [List.map_congr_left hpt, List.map_id]

/-! ### Facts about trimRows (claim C3) -/

theorem validColumnsLoop_eq (r : Row) :
    ∀ (j acc : Nat),
      validColumnsLoop r j acc =
        if (r.reverse.dropWhile (fun c => c.isEmpty)).length = 0 then acc
        else j + (r.reverse.dropWhile (fun c => c.isEmpty)).length := by
  induction r with
  | nil => intro j acc; simp [validColumnsLoop]
  | cons c rest ih =>
    intro j acc
    rw [validColumnsLoop, ih, List.reverse_cons, List.dropWhile_append]
    by_cases hre : (rest.reverse.dropWhile (fun c => c.isEmpty)).isEmpty
    · have h0 : (rest.reverse.dropWhile (fun c => c.isEmpty)).length = 0 := by
        rw [List.length_eq_zero]; exact List.isEmpty_iff.mp hre
      by_cases hc : c.isEmpty
      · have hcl : c.length = 0 := by rw [List.length_eq_zero]; exact List.isEmpty_iff.mp hc
        simp [hre, h0, List.dropWhile, hc, hcl]
      · have hcl : ¬ c.length = 0 := by
          intro h; exact hc (List.isEmpty_iff.mpr (List.length_eq_zero.mp h))
        simp [hre, h0, List.dropWhile, hc, hcl]
    · have h0 : ¬ (rest.reverse.dropWhile (fun c => c.isEmpty)).length = 0 := by
        intro h; exact hre (List.isEmpty_iff.mpr (List.length_eq_zero.mp h))
      by_cases hc : c.isEmpty
      · have hcl : c.length = 0 := by rw [List.length_eq_zero]; exact List.isEmpty_iff.mp hc
        simp [hre, h0, hcl]
        omega
      · have hcl : ¬ c.length = 0 := by
          intro h; exact hc (List.isEmpty_iff.mpr (List.length_eq_zero.mp h))
        simp [hre, h0, hcl]
        omega

theorem validColumns_eq_specLastContent (r : Row) : validColumns r = specLastContent r := by
  rw [validColumns, validColumnsLoop_eq, specLastContent]
  by_cases h : (r.reverse.dropWhile (fun c => c.isEmpty)).length = 0 <;> simp [h]

theorem mostColumns_eq_specKeepWidth (t : Table) : mostColumns t = specKeepWidth t := by
  rw [mostColumns, specKeepWidth]
  have : (fun (m : Nat) (r : Row) => max m (validColumns r)) =
      fun m r => max m (specLastContent r) := by
    funext m r; rw [validColumns_eq_specLastContent]
  rw [this]

theorem specLastContent_le_length (r : Row) : specLastContent r ≤ r.length := by
  rw [specLastContent]
  calc (r.reverse.dropWhile (fun c => c.isEmpty)).length ≤ r.reverse.length :=
        (List.dropWhile_sublist _).length_le
    _ = r.length := List.length_reverse r

theorem trimLoop_truncates (m : Nat) :
    ∀ (k : Nat) (t : Table), (∀ r ∈ t, r.length = m + k) →
      trimLoop m (m + k) t = t.map (List.take m) := by
  intro k
  induction k with
  | zero =>
    intro t ht
    rw [trimLoop, if_neg (by omega)]
    have : ∀ r ∈ t, List.take m r = id r := by
      intro r hr
      exact List.take_of_length_le (by rw [ht r hr]; omega)
    rw [List.map_congr_left this, List.map_id]
  | succ k ih =>
    intro t ht
    rw [trimLoop, if_pos (by omega)]
    have hstep : deleteColumnFromTable (m + (k + 1) + 1) t = t.map (List.take (m + k)) := by
      rw [deleteColumnFromTable]
      apply List.map_congr_left
      intro r hr
      have hlen : r.length = m + k + 1 := ht r hr
      have h1 : r.take (m + (k + 1) + 1 - 1) = r := List.take_of_length_le (by omega)
      have h2 : r.drop (m + (k + 1) + 1) = [] := List.drop_eq_nil_of_le (by omega)
      rw [h1, h2, List.append_nil, hlen]
      have harg2 : m + k + 1 - 1 = m + k := by omega
      rw [harg2]
    have harg : m + (k + 1) - 1 = m + k := by omega
    rw [hstep, harg, ih (t.map (List.take (m + k)))
      (by
        intro r hr
        rcases List.mem_map.mp hr with ⟨r₀, hr₀, rfl⟩
        have := ht r₀ hr₀
        rw [List.length_take]
        omega)]
    rw [List.map_map]
    apply List.map_congr_left
    intro r _
    have : List.take m (List.take (m + k) r) = List.take (min m (m + k)) r :=
      List.take_take m (m + k) r
    simp only [Function.comp]
    rw [this, min_eq_left (by omega)]

theorem mostColumns_le_headWidth {t : Table} (hrect : isRect t) :
    mostColumns t ≤ headWidth t := by
  apply foldl_max_le validColumns t 0 (headWidth t) (Nat.zero_le _)
  intro r hr
  calc validColumns r = specLastContent r := validColumns_eq_specLastContent r
    _ ≤ r.length := specLastContent_le_length r
    _ = headWidth t := hrect r hr

/-- C3: for a rectangular non-empty table, `trimRows` keeps, in every row,
exactly the columns up to the maximum over rows of the 1-based index of
the row's last non-empty cell, deleting all columns strictly to the right;
a table all of whose cells are empty becomes zero-wide while keeping all
its rows. -/
theorem trimRows_deletes_trailing_empty_columns (t : Table) (hne : t ≠ []) (hrect : isRect t) :
    trimRows t = t.map (List.take (specKeepWidth t)) ∧
    ((∀ r ∈ t, ∀ c ∈ r, c = ([] : CellData)) → trimRows t = t.map (fun _ => ([] : Row))) := by
  have hMW : mostColumns t ≤ headWidth t := mostColumns_le_headWidth hrect
  have hmain : trimRows t = t.map (List.take (mostColumns t)) := by
    rw [trimRows]
    have hk : headWidth t = mostColumns t + (headWidth t - mostColumns t) := by omega
    rw [hk]
    exact trimLoop_truncates (mostColumns t) (headWidth t - mostColumns t) t
      (fun r hr => by rw [hrect r hr]; omega)
  constructor
  · rw [hmain, mostColumns_eq_specKeepWidth]
  · intro hempty
    have hM : mostColumns t = 0 := by
      apply Nat.le_antisymm _ (Nat.zero_le _)
      apply foldl_max_le validColumns t 0 0 (le_refl 0)
      intro r hr
      rw [validColumns_eq_specLastContent, specLastContent]
      have : r.reverse.dropWhile (fun c => c.isEmpty) = [] := by
        rw [List.dropWhile_eq_nil_iff]
        intro c hc
        have : c = [] := hempty r hr c (List.mem_reverse.mp hc)
        simp [this]
      rw [this]
      simp
    rw [hmain, hM]
    apply List.map_congr_left
    intro r _
    simp

/-- Witness for C3 at a concrete table: `[[a, ""], ["", ""]]` keeps one
column and both rows. -/
theorem trimRows_deletes_trailing_empty_columns_witness :
    ([[['a'], []], [[], []]] : Table) ≠ [] ∧ isRect [[['a'], []], [[], []]] ∧
      trimRows [[['a'], []], [[], []]] =
        ([[['a'], []], [[], []]] : Table).map
          (List.take (specKeepWidth [[['a'], []], [[], []]])) :=
  ⟨by decide, by decide,
    (trimRows_deletes_trailing_empty_columns _ (by decide) (by decide)).1⟩

/-! ### Facts about the cell decoder (claim C2) -/

theorem loadCellLoop_nil (delims : List Char) (prevC : Char) (ig : Bool) (acc : List Char) :
    loadCellLoop delims [] prevC ig acc =
      if ig then .error () else .ok (acc.reverse, []) := rfl

theorem loadCellLoop_cons (delims : List Char) (c : Char) (rest : List Char) (prevC : Char)
    (ig : Bool) (acc : List Char) :
    loadCellLoop delims (c :: rest) prevC ig acc =
      if c = '\n' ∨ (c ∈ delims ∧ ig = false) then
        if ig then .error () else .ok (acc.reverse, c :: rest)
      else if c = '"' ∧ prevC ≠ '\\' then
        if prevC = '\x00' then loadCellLoop delims rest c true acc
        else
          if peekCloses delims rest ∧ ig = true then loadCellLoop delims rest c false acc
          else .error ()
      else if c ∉ SPECIAL_CHARS ∨ prevC = '\\' then loadCellLoop delims rest c ig (c :: acc)
      else loadCellLoop delims rest c ig acc := rfl

theorem loadCellLoop_plain (delims : List Char) :
    ∀ (s r acc : List Char) (prevC : Char) (ig : Bool),
      (∀ c ∈ s, isPlainChar delims c) →
      loadCellLoop delims (s ++ r) prevC ig acc =
        loadCellLoop delims r (s.getLastD prevC) ig (s.reverse ++ acc) := by
  intro s
  induction s with
  | nil => intro r acc prevC ig _; simp
  | cons c s ih =>
    intro r acc prevC ig hs
    obtain ⟨h1, h2, h3, h4, h5⟩ := hs c (by simp)
    rw [List.cons_append, loadCellLoop_cons]
    rw [if_neg (by simp [h1, h2]), if_neg (by simp [h3]),
      if_pos (Or.inl (by simp [SPECIAL_CHARS, h3, h4]))]
    rw [ih r (c :: acc) c ig (fun x hx => hs x (by simp [hx]))]
    rw [List.getLastD_cons prevC c s, List.reverse_cons, List.append_assoc,
      List.singleton_append]

theorem getLastD_mem : ∀ (s : List Char) (d : Char), s ≠ [] → s.getLastD d ∈ s := by
  intro s
  induction s with
  | nil => intro d h; exact absurd rfl h
  | cons c s ih =>
    intro d _
    rw [List.getLastD_cons d c s]
    by_cases hs : s = []
    · subst hs; simp
    · exact List.mem_cons_of_mem c (ih c hs)

theorem getLastD_not_special (delims : List Char) {s : List Char}
    (hs : ∀ c ∈ s, isPlainChar delims c) (d : Char) (hd1 : d ≠ '\\') (hd2 : d ≠ '\x00') :
    s.getLastD d ≠ '\\' ∧ s.getLastD d ≠ '\x00' := by
  by_cases h : s = []
  · subst h; exact ⟨hd1, hd2⟩
  · obtain ⟨_, _, _, h4, h5⟩ := hs _ (getLastD_mem s d h)
    exact ⟨h4, h5⟩

/-- C2 (counterexample): an unescaped `"` in the middle of an unquoted
cell is not silently discarded — decoding `a"b` with delimiter `' '`
aborts with `MalformedQuoting` (`INVALID_INPUT_FORMAT`), although quoting
was never opened. -/
theorem loadCell_stray_quote_errors :
    loadCellFromFile [' '] ['a', '"', 'b'] = .error () := rfl

/-- C2 (amended): the decoder raises MalformedQuoting exactly at an
unescaped `"` that neither begins the cell nor closes an open quote right
before a delimiter or line feed, and at end of cell with quoting open.
Over any delimiter set without `"` and any plain content `s`:
a stray `"` after non-empty unquoted content is always an error; a quoted
cell whose closing `"` is followed by end of input is an error (EOF does
not close a quote); a closing `"` followed by a line feed or a delimiter
succeeds with exactly the quoted content; an unclosed quote is an
error. -/
theorem loadCell_malformed_quoting (delims s t' : List Char) (hdq : '"' ∉ delims)
    (hs : ∀ c ∈ s, isPlainChar delims c) :
    (s ≠ [] → loadCellFromFile delims (s ++ '"' :: t') = .error ()) ∧
    loadCellFromFile delims ('"' :: (s ++ ['"'])) = .error () ∧
    loadCellFromFile delims ('"' :: (s ++ '"' :: '\n' :: t')) = .ok (s, '\n' :: t') ∧
    (∀ d ∈ delims, loadCellFromFile delims ('"' :: (s ++ '"' :: d :: t')) = .ok (s, d :: t')) ∧
    loadCellFromFile delims ('"' :: s) = .error () := by
  have hq2 : ('"' : Char) ≠ '\\' := by decide
  have hq3 : ('"' : Char) ≠ '\x00' := by decide
  have hopen : ∀ (r : List Char),
      loadCellFromFile delims ('"' :: r) = loadCellLoop delims r '"' true [] := by
    intro r
    rw [loadCellFromFile, loadCellLoop_cons,
      if_neg (by simp [hdq, show ('"' : Char) ≠ '\n' by decide]),
      if_pos ⟨rfl, by decide⟩, if_pos rfl]
  refine ⟨?_, ?_, ?_, ?_, ?_⟩
  · intro hne
    rw [loadCellFromFile, loadCellLoop_plain delims s ('"' :: t') [] '\x00' false hs]
    obtain ⟨_, _, _, hp1, hp2⟩ := hs _ (getLastD_mem s '\x00' hne)
    rw [loadCellLoop_cons,
      if_neg (by simp [hdq, show ('"' : Char) ≠ '\n' by decide]),
      if_pos ⟨rfl, hp1⟩, if_neg hp2, if_neg (by simp)]
  · rw [hopen, loadCellLoop_plain delims s ['"'] [] '"' true hs]
    obtain ⟨hp1, hp2⟩ := getLastD_not_special delims hs '"' hq2 hq3
    rw [loadCellLoop_cons,
      if_neg (by simp [hdq, show ('"' : Char) ≠ '\n' by decide]),
      if_pos ⟨rfl, hp1⟩, if_neg hp2, if_neg (by simp [peekCloses])]
  · rw [hopen, loadCellLoop_plain delims s ('"' :: '\n' :: t') [] '"' true hs]
    obtain ⟨hp1, hp2⟩ := getLastD_not_special delims hs '"' hq2 hq3
    rw [loadCellLoop_cons,
      if_neg (by simp [hdq, show ('"' : Char) ≠ '\n' by decide]),
      if_pos ⟨rfl, hp1⟩, if_neg hp2, if_pos ⟨by simp [peekCloses], rfl⟩]
    rw [loadCellLoop_cons, if_pos (Or.inl rfl), if_neg (by simp)]
    simp
  · intro d hd
    rw [hopen, loadCellLoop_plain delims s ('"' :: d :: t') [] '"' true hs]
    obtain ⟨hp1, hp2⟩ := getLastD_not_special delims hs '"' hq2 hq3
    rw [loadCellLoop_cons,
      if_neg (by simp [hdq, show ('"' : Char) ≠ '\n' by decide]),
      if_pos ⟨rfl, hp1⟩, if_neg hp2,
      if_pos ⟨by simp [peekCloses]; exact Or.inr hd, rfl⟩]
    rw [loadCellLoop_cons, if_pos (Or.inr ⟨hd, rfl⟩), if_neg (by simp)]
    simp
  · rw [hopen]
    have : (s : List Char) = s ++ [] := by simp
    rw [this, loadCellLoop_plain delims s [] [] '"' true hs, loadCellLoop_nil, if_pos rfl]

/-- Witness for C2 at concrete inputs: delimiter `' '`, content `a`. -/
theorem loadCell_malformed_quoting_witness :
    ('"' ∉ [' ']) ∧ (∀ c ∈ ['a'], isPlainChar [' '] c) ∧
      ((['a'] ≠ [] → loadCellFromFile [' '] (['a'] ++ '"' :: ['x']) = .error ()) ∧
        loadCellFromFile [' '] ('"' :: (['a'] ++ ['"'])) = .error () ∧
        loadCellFromFile [' '] ('"' :: (['a'] ++ '"' :: '\n' :: ['x'])) = .ok (['a'], '\n' :: ['x']) ∧
        (∀ d ∈ [' '],
          loadCellFromFile [' '] ('"' :: (['a'] ++ '"' :: d :: ['x'])) = .ok (['a'], d :: ['x'])) ∧
        loadCellFromFile [' '] ('"' :: ['a']) = .error ()) :=
  ⟨by decide, by decide, loadCell_malformed_quoting [' '] ['a'] ['x'] (by decide) (by decide)⟩

/-! ### Resizing lemmas (for claims C4 and C7) -/

theorem rowMaxWidth_le {t : Table} {w : Nat} (h : ∀ r ∈ t, r.length ≤ w) :
    rowMaxWidth t ≤ w :=
  foldl_max_le List.length t 0 w (Nat.zero_le w) h

theorem alignRowSizes_uniform {t : Table} {w : Nat} (h : ∀ r ∈ t, r.length = w) :
    alignRowSizes t = t := by
  rw [alignRowSizes]
  have hpt : ∀ r ∈ t, r ++ List.replicate (rowMaxWidth t - r.length) [] = id r := by
    intro r hr
    have h1 : rowMaxWidth t ≤ w := rowMaxWidth_le (fun x hx => le_of_eq (h x hx))
    have h2 : rowMaxWidth t - r.length = 0 := by rw [h r hr]; omega
    rw [h2]
    simp
  rw [List.map_congr_left hpt, List.map_id]

theorem resizeTable_eq_specGrow {t : Table} (hrect : isRect t) (hne : t ≠ [])
    (rows columns : Nat) : resizeTable t rows columns = specGrow t rows columns := by
  rcases t with _ | ⟨r0, rest⟩
  · exact absurd rfl hne
  have hW : headWidth (r0 :: rest) = r0.length := rfl
  have hrest : ∀ r ∈ r0 :: rest, r.length = r0.length := fun r hr => hrect r hr
  have hMW : r0.length + (columns - r0.length) = max r0.length columns := by omega
  have hM2 : columns - r0.length = max r0.length columns - r0.length := by omega
  rw [resizeTable]
  set M := max r0.length columns with hMdef
  set r0' := r0 ++ List.replicate (columns - r0.length) [] with hr0'
  set t2 : Table :=
    (r0' :: rest) ++ List.replicate (rows - (r0' :: rest).length) [] with ht2
  have hlenr0' : r0'.length = M := by
    rw [hr0', List.length_append, List.length_replicate, hMdef]
    omega
  have hmax : rowMaxWidth t2 = M := by
    apply le_antisymm
    · apply rowMaxWidth_le
      intro r hr
      rw [ht2] at hr
      rcases List.mem_append.mp hr with hr | hr
      · rcases List.mem_cons.mp hr with hr | hr
        · rw [hr, hlenr0']
        · rw [hrest r (List.mem_cons_of_mem r0 hr), hMdef]; omega
      · rw [List.eq_of_mem_replicate hr]
        simp [hMdef]
    · have : r0' ∈ t2 := by rw [ht2]; exact List.mem_append_left _ (by simp)
      calc M = r0'.length := hlenr0'.symm
        _ ≤ rowMaxWidth t2 := le_foldl_max List.length t2 0 r0' this
  show alignRowSizes t2 = specGrow (r0 :: rest) rows columns
  rw [alignRowSizes, hmax, ht2, List.map_append, List.map_cons, specGrow]
  congr 1
  · rw [List.map_cons]
    congr 1
    · rw [hlenr0', Nat.sub_self, hr0']
      simp [hW, hM2, hMdef]
    · apply List.map_congr_left
      intro r hr
      rw [hrest r (List.mem_cons_of_mem r0 hr), hW]
  · rw [List.map_replicate]
    simp [hW, hMdef]

theorem specGrow_rows_only (t : Table) (rows : Nat) :
    specGrow t rows (headWidth t) =
      t ++ List.replicate (rows - t.length) (List.replicate (headWidth t) []) := by
  rw [specGrow, max_self, Nat.sub_self]
  congr 1
  have : ∀ r ∈ t, r ++ List.replicate 0 ([] : CellData) = id r := by
    intro r _; simp
  rw [List.map_congr_left this, List.map_id]

theorem specGrow_length (t : Table) (rows columns : Nat) :
    (specGrow t rows columns).length = max t.length rows := by
  rw [specGrow, List.length_append, List.length_map, List.length_replicate]
  omega

theorem specGrow_headWidth {t : Table} (hne : t ≠ []) (rows columns : Nat) :
    headWidth (specGrow t rows columns) = max (headWidth t) columns := by
  rcases t with _ | ⟨r0, rest⟩
  · exact absurd rfl hne
  show (r0 ++ List.replicate
      (max (headWidth (r0 :: rest)) columns - headWidth (r0 :: rest)) []).length = _
  rw [List.length_append, List.length_replicate]
  show r0.length + (max r0.length columns - r0.length) = max r0.length columns
  omega

theorem specGrow_rect {t : Table} (hrect : isRect t) (hne : t ≠ []) (rows columns : Nat) :
    isRect (specGrow t rows columns) := by
  intro r hr
  rw [specGrow_headWidth hne]
  rw [specGrow] at hr
  rcases List.mem_append.mp hr with hr | hr
  · rcases List.mem_map.mp hr with ⟨r₀, hr₀, rfl⟩
    rw [List.length_append, List.length_replicate, hrect r₀ hr₀]
    omega
  · rw [List.eq_of_mem_replicate hr, List.length_replicate]

theorem toUns_eq_toNat {x : Int} (h0 : 0 ≤ x) (h1 : x < 2 ^ 32) : toUns x = x.toNat := by
  rw [toUns, Int.emod_eq_of_lt h0 (by exact_mod_cast h1)]

theorem headWidth_append_left {t : Table} (hne : t ≠ []) (l : Table) :
    headWidth (t ++ l) = headWidth t := by
  rcases t with _ | ⟨r0, rest⟩
  · exact absurd rfl hne
  rfl

/-! ### Facts about window selection (claim C4) -/

/-- C4 (counterexample): on a 2×2 table, the command `[2,2,_,_]` —
`intParams = (2, 2, −1, −1)` — fails with BadSelection although after
resolving `_` to the last row/column the rectangle is `(2,2)..(2,2)` with
`R1 ≤ R2 ∧ C1 ≤ C2`: `windowSelect` compares the raw parameters, and
`2 > −1`. -/
theorem selectCore_window_checks_raw_sentinels :
    selectCore 2 2 (-1) (-1) [[['a'], ['b']], [['c'], ['d']]]
        createSelection (createVars createSelection 0) = .error .badWindowOrder ∧
      ([[['a'], ['b']], [['c'], ['d']]] : Table).length = 2 ∧
      headWidth [[['a'], ['b']], [['c'], ['d']]] = 2 := by
  refine ⟨rfl, rfl, rfl⟩

theorem selectGates_eq {t : Table} (hne : t ≠ []) (hrect : isRect t) (rTo cTo : Nat)
    (T1 : Table) (hT1 : T1 = if t.length < rTo then resizeTable t rTo (headWidth t) else t) :
    (if headWidth T1 < cTo then resizeTable T1 T1.length cTo else T1) =
      specGrow t rTo cTo := by
  have hT1eq : T1 = t ++ List.replicate (rTo - t.length)
      (List.replicate (headWidth t) []) := by
    rw [hT1]
    by_cases hg : t.length < rTo
    · rw [if_pos hg, resizeTable_eq_specGrow hrect hne, specGrow_rows_only]
    · rw [if_neg hg]
      have h0 : rTo - t.length = 0 := by omega
      rw [h0]
      simp
  have hT1ne : T1 ≠ [] := by
    rw [hT1eq]
    rcases t with _ | ⟨r0, rest⟩
    · exact absurd rfl hne
    · simp
  have hT1W : headWidth T1 = headWidth t := by rw [hT1eq, headWidth_append_left hne]
  have hT1rect : isRect T1 := by
    intro r hr
    rw [hT1W]
    rw [hT1eq] at hr
    rcases List.mem_append.mp hr with hr | hr
    · exact hrect r hr
    · rw [List.eq_of_mem_replicate hr, List.length_replicate]
  have hT2eq : (if headWidth T1 < cTo then resizeTable T1 T1.length cTo else T1) = T1.map
      (fun r => r ++ List.replicate (max (headWidth t) cTo - headWidth t) []) := by
    by_cases hg : headWidth T1 < cTo
    · rw [if_pos hg, resizeTable_eq_specGrow hT1rect hT1ne, specGrow, hT1W, Nat.sub_self]
      simp
    · rw [if_neg hg]
      rw [hT1W] at hg
      have h0 : max (headWidth t) cTo - headWidth t = 0 := by omega
      rw [h0]
      apply Eq.symm
      have hpt : ∀ r ∈ T1, r ++ List.replicate 0 ([] : CellData) = id r := by
        intro r _; simp
      rw [List.map_congr_left hpt, List.map_id]
  rw [hT2eq, hT1eq, List.map_append, List.map_replicate, specGrow]
  congr 1
  congr 1
  rw [← List.replicate_add]
  congr 1
  omega

theorem selectCore_window_err (p0 p1 p2 p3 : Int) (t : Table) (sel : Selection)
    (vars : Variables) (h0 : 1 ≤ p0) (h1 : 1 ≤ p1) (h2 : p2 ≠ 0) (h3 : p3 ≠ 0)
    (horder : p2 < p0 ∨ p3 < p1) :
    selectCore p0 p1 p2 p3 t sel vars = .error .badWindowOrder := by
  have hq0 : ¬(p0 = -1 ∧ p1 = 0) := by rintro ⟨h, _⟩; omega
  have hq1 : ¬(p0 = 0 ∨ p1 = 0) := by rintro (h | h) <;> omega
  have hw : windowCore p0 p1 p2 p3 t sel = .error .badWindowOrder := by
    simp only [windowCore]
    rw [if_pos horder]
  simp only [selectCore]
  rw [if_neg hq0, if_neg hq1, if_pos ⟨h2, h3⟩, hw]

theorem selectCore_window_ok (p0 p1 p2 p3 : Int) (t : Table) (sel : Selection)
    (vars : Variables) (hne : t ≠ []) (hrect : isRect t)
    (h0 : 1 ≤ p0) (h1 : 1 ≤ p1) (h2 : p2 ≠ 0) (h3 : p3 ≠ 0)
    (hb0 : p0 < 2 ^ 32) (hb1 : p1 < 2 ^ 32) (hb2 : p2 < 2 ^ 32) (hb3 : p3 < 2 ^ 32)
    (hle1 : p0 ≤ p2) (hle2 : p1 ≤ p3) :
    selectCore p0 p1 p2 p3 t sel vars =
      .ok (specGrow t p2.toNat p3.toNat,
        { sel with rowFrom := p0.toNat, rowTo := p2.toNat,
                   colFrom := p1.toNat, colTo := p3.toNat }) := by
  have hq0 : ¬(p0 = -1 ∧ p1 = 0) := by rintro ⟨h, _⟩; omega
  have hq1 : ¬(p0 = 0 ∨ p1 = 0) := by rintro (h | h) <;> omega
  have hmixed : ¬((p2 ≠ 0 ∧ p3 = 0) ∨ (p2 = 0 ∧ p3 ≠ 0)) := by
    rintro (⟨_, h⟩ | ⟨h, _⟩) <;> exact absurd h (by omega)
  have e0 : toUns p0 = p0.toNat := toUns_eq_toNat (by omega) hb0
  have e1 : toUns p1 = p1.toNat := toUns_eq_toNat (by omega) hb1
  have e2 : toUns p2 = p2.toNat := toUns_eq_toNat (by omega) hb2
  have e3 : toUns p3 = p3.toNat := toUns_eq_toNat (by omega) hb3
  set sel2 : Selection :=
    { sel with rowFrom := p0.toNat, rowTo := p2.toNat,
               colFrom := p1.toNat, colTo := p3.toNat } with hsel2
  have hw : windowCore p0 p1 p2 p3 t sel = .ok sel2 := by
    simp only [windowCore]
    rw [if_neg (by omega), if_neg hmixed,
      if_pos (show p2 ≠ -1 by omega), if_pos (show p3 ≠ -1 by omega), e0, e1, e2, e3]
  set T1 : Table :=
    if t.length < p2.toNat then resizeTable t p2.toNat (headWidth t) else t with hT1
  have hstep : selectCore p0 p1 p2 p3 t sel vars =
      .ok ((if headWidth T1 < p3.toNat then resizeTable T1 T1.length p3.toNat else T1),
        sel2) := by
    simp only [selectCore]
    rw [if_neg hq0, if_neg hq1, if_pos ⟨h2, h3⟩, hw]
  rw [hstep, selectGates_eq hne hrect p2.toNat p3.toNat T1 hT1]

/-- C4 (amended): for the window command `[R1,C1,R2,C2]` with positive
`R1`, `C1` and non-zero stored second-pair parameters, the command fails
with BadSelection exactly when `R1 > R2` or `C1 > C2` compared on the raw
integer parameters (`_` stored as −1) — so `_` in the `R2`/`C2` slot
always fails and is never resolved; when the check passes, the live
selection becomes exactly `(R1,C1)..(R2,C2)` and the table is grown (never
shrunk) to the pointwise maxima of its dimensions and the rectangle,
keeping every existing cell and padding with empty ones. -/
theorem selectCore_window_spec (p0 p1 p2 p3 : Int) (t : Table) (sel : Selection)
    (vars : Variables) (hne : t ≠ []) (hrect : isRect t)
    (h0 : 1 ≤ p0) (h1 : 1 ≤ p1) (h2 : p2 ≠ 0) (h3 : p3 ≠ 0)
    (hb0 : p0 < 2 ^ 32) (hb1 : p1 < 2 ^ 32) (hb2 : p2 < 2 ^ 32) (hb3 : p3 < 2 ^ 32) :
    ((∃ e, selectCore p0 p1 p2 p3 t sel vars = .error e) ↔ (p2 < p0 ∨ p3 < p1)) ∧
    (p0 ≤ p2 → p1 ≤ p3 →
      selectCore p0 p1 p2 p3 t sel vars =
        .ok (specGrow t p2.toNat p3.toNat,
          { sel with rowFrom := p0.toNat, rowTo := p2.toNat,
                     colFrom := p1.toNat, colTo := p3.toNat }) ∧
        (specGrow t p2.toNat p3.toNat).length = max t.length p2.toNat ∧
        headWidth (specGrow t p2.toNat p3.toNat) = max (headWidth t) p3.toNat ∧
        isRect (specGrow t p2.toNat p3.toNat) ∧
        t.length ≤ (specGrow t p2.toNat p3.toNat).length ∧
        headWidth t ≤ headWidth (specGrow t p2.toNat p3.toNat)) := by
  by_cases horder : p2 < p0 ∨ p3 < p1
  · have hstep := selectCore_window_err p0 p1 p2 p3 t sel vars h0 h1 h2 h3 horder
    refine ⟨⟨fun _ => horder, fun _ => ⟨.badWindowOrder, hstep⟩⟩, ?_⟩
    intro hle1 hle2
    exact absurd horder (by omega)
  · push_neg at horder
    obtain ⟨hle1, hle2⟩ := horder
    have hstep := selectCore_window_ok p0 p1 p2 p3 t sel vars hne hrect h0 h1 h2 h3
      hb0 hb1 hb2 hb3 hle1 hle2
    refine ⟨⟨fun ⟨e, he⟩ => ?_, fun h => absurd h (by omega)⟩, ?_⟩
    · rw [hstep] at he
      exact Except.noConfusion he
    · intro _ _
      refine ⟨hstep, specGrow_length t _ _, specGrow_headWidth hne _ _,
        specGrow_rect hrect hne _ _, ?_, ?_⟩
      · rw [specGrow_length]; omega
      · rw [specGrow_headWidth hne]; omega

/-- Witness for C4 at a concrete instance: `[1,1,2,3]` on a 2×2 table of
`a b / c d` succeeds, sets the selection to rows 1..2, columns 1..3, and
grows the table to width 3. -/
theorem selectCore_window_spec_witness :
    (([[['a'], ['b']], [['c'], ['d']]] : Table) ≠ [] ∧
      isRect [[['a'], ['b']], [['c'], ['d']]] ∧
      (1 : Int) ≤ 1 ∧ (1 : Int) ≤ 1 ∧ (2 : Int) ≠ 0 ∧ (3 : Int) ≠ 0 ∧
      (1 : Int) < 2 ^ 32 ∧ (2 : Int) < 2 ^ 32 ∧ (3 : Int) < 2 ^ 32) ∧
    ((∃ e, selectCore 1 1 2 3 [[['a'], ['b']], [['c'], ['d']]]
        createSelection (createVars createSelection 0) = .error e) ↔
      ((2 : Int) < 1 ∨ (3 : Int) < 1)) := by
  refine ⟨by constructor; decide; constructor; decide; norm_num, ?_⟩
  exact (selectCore_window_spec 1 1 2 3 [[['a'], ['b']], [['c'], ['d']]]
    createSelection (createVars createSelection 0) (by decide) (by decide)
    (by norm_num) (by norm_num) (by norm_num) (by norm_num)
    (by norm_num) (by norm_num) (by norm_num) (by norm_num)).1

/-! ### Facts about the saved-selection slot (claim C8) -/

theorem selectCore_restore (t : Table) (sel : Selection) (vars : Variables)
    (h : vars.sel.rowFrom ≠ 0) :
    selectCore (-1) 0 0 0 t sel vars = .ok (t, updateSelectionBySelection sel vars.sel) := by
  unfold selectCore
  rw [if_pos ⟨rfl, rfl⟩, if_neg h]

/-- C8: `createVars` obtains `vars->sel` from `malloc` and never writes
its fields, so whether the `[_]` restore before any `set-v` fails with
NoSavedSelection depends on the indeterminate allocator bytes `g`: with
`g.rowFrom = 0` the code errors as the claim demands, but with (equally
possible) garbage `g.rowFrom = 7` the same `[_]` succeeds and overwrites
the live selection with the garbage rectangle.  The claim's second half
is correct: after a `set-v` (`setVars`), `[_]` restores the saved
rectangle. -/
theorem createVars_saved_selection_indeterminate :
    (selectCore (-1) 0 0 0 [[['a']]] createSelection
        (createVars { rowFrom := 0, rowTo := 0, colFrom := 0, colTo := 0,
                      curRow := 0, curCol := 0 } 0) =
      .error .noSavedSelection) ∧
    (selectCore (-1) 0 0 0 [[['a']]] createSelection
        (createVars { rowFrom := 7, rowTo := 8, colFrom := 9, colTo := 9,
                      curRow := 0, curCol := 0 } 0) =
      .ok ([[['a']]],
        { rowFrom := 7, rowTo := 8, colFrom := 9, colTo := 9,
          curRow := 0, curCol := 0 })) ∧
    (∀ (st : ExecState) (cmd : Command), 1 ≤ st.sel.rowFrom →
      ∃ st2, setVars cmd st = .ok st2 ∧
        selectCore (-1) 0 0 0 st2.table st2.sel st2.vars = .ok (st.table, st.sel)) := by
  refine ⟨rfl, rfl, ?_⟩
  intro st cmd h1
  refine ⟨_, rfl, ?_⟩
  rw [selectCore_restore _ _ _ (by show st.sel.rowFrom ≠ 0; omega)]
  rfl

/-! ### Facts about selection containment (claim C7) -/

/-- C7 (counterexample): the containment invariant does not survive
shrinking mutation commands.  Dispatching the single command `drow` on the
1×1 table `[[a]]` (live selection `(1,1)..(1,1)`) succeeds and leaves the
table with zero rows while the selection still has `rowTo = 1`: after
this command boundary `rowTo ≤ rows` fails. -/
theorem dispatch_drow_breaks_containment :
    processCommandsFull (commandCatalog (fun _ => 0) (fun _ => []))
        [{ type := CLASSIC_COMMAND, name := "drow".toList, intParams := [], strParams := [] }]
        [[['a']]] createSelection 0 =
      .ok { table := [],
            sel := { rowFrom := 1, rowTo := 1, colFrom := 1, colTo := 1,
                     curRow := 1, curCol := 1 },
            vars := createVars createSelection 0 } ∧
      ¬ selectionContained
          { rowFrom := 1, rowTo := 1, colFrom := 1, colTo := 1, curRow := 1, curCol := 1 }
          [] :=
  ⟨rfl, by decide⟩

/-- C7 (amended): the containment invariant does hold after every
successful `select` command of the `[R,C]` and `[R1,C1,R2,C2]` forms
(row/column parameters positive or the LAST sentinel, first pair positive
when the window form is taken), on a rectangular table with at least one
row and one column — such commands auto-grow the table to fit; but the
invariant is not re-established after mutation commands that shrink the
table (`drow`, `dcol`), nor by the `[_]` restore. -/
theorem selectCore_preserves_containment (p0 p1 p2 p3 : Int) (t : Table) (sel : Selection)
    (vars : Variables) (hne : t ≠ []) (hrect : isRect t) (hW : 1 ≤ headWidth t)
    (hp0 : p0 = -1 ∨ 1 ≤ p0) (hp1 : p1 = -1 ∨ 1 ≤ p1)
    (hb0 : p0 < 2 ^ 32) (hb1 : p1 < 2 ^ 32) (hb2 : p2 < 2 ^ 32) (hb3 : p3 < 2 ^ 32)
    (hwin : p2 ≠ 0 → p3 ≠ 0 → 1 ≤ p0 ∧ 1 ≤ p1) :
    ∀ t' sel', selectCore p0 p1 p2 p3 t sel vars = .ok (t', sel') →
      selectionContained sel' t' := by
  intro t' sel' hok
  have hq0 : ¬(p0 = -1 ∧ p1 = 0) := by
    rcases hp1 with h | h <;> rintro ⟨_, h2⟩ <;> omega
  have hq1 : ¬(p0 = 0 ∨ p1 = 0) := by
    rcases hp0 with ha | ha <;> rcases hp1 with hb | hb <;> rintro (h | h) <;> omega
  have hlen1 : 1 ≤ t.length := List.length_pos.mpr hne
  by_cases hw2 : p2 ≠ 0 ∧ p3 ≠ 0
  · obtain ⟨hg0, hg1⟩ := hwin hw2.1 hw2.2
    by_cases horder : p2 < p0 ∨ p3 < p1
    · rw [selectCore_window_err p0 p1 p2 p3 t sel vars hg0 hg1 hw2.1 hw2.2 horder] at hok
      exact Except.noConfusion hok
    · push_neg at horder
      rw [selectCore_window_ok p0 p1 p2 p3 t sel vars hne hrect hg0 hg1 hw2.1 hw2.2
        hb0 hb1 hb2 hb3 horder.1 horder.2] at hok
      injection hok with h
      rw [Prod.mk.injEq] at h
      obtain ⟨h1, h2⟩ := h
      subst h1
      subst h2
      refine ⟨by show 1 ≤ p0.toNat; omega, by show p0.toNat ≤ p2.toNat; omega,
        ?_, by show 1 ≤ p1.toNat; omega, by show p1.toNat ≤ p3.toNat; omega, ?_⟩
      · show p2.toNat ≤ (specGrow t p2.toNat p3.toNat).length
        rw [specGrow_length]
        exact le_max_right _ _
      · show p3.toNat ≤ headWidth (specGrow t p2.toNat p3.toNat)
        rw [specGrow_headWidth hne]
        exact le_max_right _ _
  · set sel2 : Selection := { sel with
      rowFrom := if p0 ≠ -1 then toUns p0 else 1,
      rowTo := if p0 ≠ -1 then toUns p0 else t.length,
      colFrom := if p1 ≠ -1 then toUns p1 else 1,
      colTo := if p1 ≠ -1 then toUns p1 else headWidth t } with hsel2
    set T1 : Table :=
      if t.length < sel2.rowTo then resizeTable t sel2.rowTo (headWidth t) else t with hT1
    have hstep : selectCore p0 p1 p2 p3 t sel vars =
        .ok ((if headWidth T1 < sel2.colTo then resizeTable T1 T1.length sel2.colTo else T1),
          sel2) := by
      simp only [selectCore]
      rw [if_neg hq0, if_neg hq1, if_neg hw2]
    rw [selectGates_eq hne hrect sel2.rowTo sel2.colTo T1 hT1] at hstep
    rw [hstep] at hok
    injection hok with h
    rw [Prod.mk.injEq] at h
    obtain ⟨h1, h2⟩ := h
    subst h1
    subst h2
    have hrow : 1 ≤ sel2.rowFrom ∧ sel2.rowFrom ≤ sel2.rowTo := by
      rcases hp0 with hp0 | hp0
      · subst hp0
        constructor
        · show 1 ≤ (if (-1 : Int) ≠ -1 then toUns (-1) else 1)
          simp
        · show (if (-1 : Int) ≠ -1 then toUns (-1) else 1) ≤
            (if (-1 : Int) ≠ -1 then toUns (-1) else t.length)
          simpa using hlen1
      · have hne0 : p0 ≠ -1 := by omega
        constructor
        · show 1 ≤ (if p0 ≠ -1 then toUns p0 else 1)
          rw [if_pos hne0, toUns_eq_toNat (by omega) hb0]
          omega
        · show (if p0 ≠ -1 then toUns p0 else 1) ≤ (if p0 ≠ -1 then toUns p0 else t.length)
          simp [hne0]
    have hcol : 1 ≤ sel2.colFrom ∧ sel2.colFrom ≤ sel2.colTo := by
      rcases hp1 with hp1 | hp1
      · subst hp1
        constructor
        · show 1 ≤ (if (-1 : Int) ≠ -1 then toUns (-1) else 1)
          simp
        · show (if (-1 : Int) ≠ -1 then toUns (-1) else 1) ≤
            (if (-1 : Int) ≠ -1 then toUns (-1) else headWidth t)
          simpa using hW
      · have hne1' : p1 ≠ -1 := by omega
        constructor
        · show 1 ≤ (if p1 ≠ -1 then toUns p1 else 1)
          rw [if_pos hne1', toUns_eq_toNat (by omega) hb1]
          omega
        · show (if p1 ≠ -1 then toUns p1 else 1) ≤ (if p1 ≠ -1 then toUns p1 else headWidth t)
          simp [hne1']
    refine ⟨hrow.1, hrow.2, ?_, hcol.1, hcol.2, ?_⟩
    · rw [specGrow_length]
      exact le_max_right _ _
    · rw [specGrow_headWidth hne]
      exact le_max_right _ _

/-- Witness for the amended C7 at a concrete instance: `[2,_]` on the 1×1
table `[[a]]` succeeds and the resulting selection is contained. -/
theorem selectCore_preserves_containment_witness :
    (([[['a']]] : Table) ≠ [] ∧ isRect [[['a']]] ∧ 1 ≤ headWidth [[['a']]] ∧
      ((2 : Int) = -1 ∨ (1 : Int) ≤ 2) ∧ ((-1 : Int) = -1 ∨ (1 : Int) ≤ -1) ∧
      (2 : Int) < 2 ^ 32 ∧ (-1 : Int) < 2 ^ 32 ∧ (0 : Int) < 2 ^ 32) ∧
    (∀ t' sel', selectCore 2 (-1) 0 0 [[['a']]] createSelection
        (createVars createSelection 0) = .ok (t', sel') → selectionContained sel' t') :=
  ⟨⟨by decide, by decide, by decide, Or.inr (by norm_num), Or.inl rfl,
      by norm_num, by norm_num, by norm_num⟩,
    selectCore_preserves_containment 2 (-1) 0 0 [[['a']]] createSelection
      (createVars createSelection 0) (by decide) (by decide) (by decide)
      (Or.inr (by norm_num)) (Or.inl rfl) (by norm_num) (by norm_num) (by norm_num)
      (by norm_num) (fun h2 h3 => absurd rfl h2)⟩

/-! ### Facts about sum and avg (claim C6) -/

theorem setCellValue_length (t : Table) (R C : Nat) (v : CellData) :
    (setCellValue t R C v).length = t.length := by
  rw [setCellValue, List.length_set]

theorem setCellValue_headWidth (t : Table) (R C : Nat) (v : CellData) :
    headWidth (setCellValue t R C v) = headWidth t := by
  rcases t with _ | ⟨r0, rest⟩
  · rfl
  rw [setCellValue]
  cases hR : R - 1 with
  | zero =>
    rw [List.set_cons_zero]
    show (((r0 :: rest).getD 0 []).set (C - 1) v).length = r0.length
    show ((r0.set (C - 1) v)).length = r0.length
    exact List.length_set r0 (C - 1) v
  | succ n =>
    rw [List.set_cons_succ]
    rfl

theorem getD_set_ne {α : Type} (l : List α) (i j : Nat) (x d : α) (h : i ≠ j) :
    (l.set i x).getD j d = l.getD j d := by
  rw [List.getD_eq_getElem?_getD, List.getD_eq_getElem?_getD, List.getElem?_set_ne h]

theorem getCellValue_setCellValue_ne (t : Table) (R C r c : Nat) (v : CellData)
    (hR : 1 ≤ R) (hC : 1 ≤ C) (hr : 1 ≤ r) (hc : 1 ≤ c) (hne : r ≠ R ∨ c ≠ C) :
    getCellValue (setCellValue t R C v) r c = getCellValue t r c := by
  rw [getCellValue, getCellValue, setCellValue_length, setCellValue_headWidth]
  by_cases hguard : u32sub t.length 1 < u32sub r 1 ∨ u32sub (headWidth t) 1 < u32sub c 1
  · rw [if_pos hguard, if_pos hguard]
  · rw [if_neg hguard, if_neg hguard, setCellValue]
    rcases hne with hne | hne
    · rw [getD_set_ne _ _ _ _ _ (by omega)]
    · by_cases hrR : r = R
      · subst hrR
        by_cases hin : r - 1 < t.length
        · have : (t.set (r - 1) ((t.getD (r - 1) []).set (C - 1) v)).getD (r - 1) [] =
              (t.getD (r - 1) []).set (C - 1) v := by
            rw [List.getD_eq_getElem?_getD, List.getElem?_set_self hin,
              List.getD_eq_getElem?_getD]
            rfl
          rw [this, List.getElem?_set_ne (by omega)]
        · rw [List.set_eq_of_length_le (by omega)]
      · rw [getD_set_ne _ _ _ _ _ (by omega)]

/-- C6: for a single-cell selection whose cell content passes
`isValidNumber`, one invocation of `sum [R,C]` or `avg [R,C]` (with
positive in-range `R`,`C`) writes the `%g` rendering of exactly the
cell's parsed value to `(R,C)` — the accumulator is zeroed on this first
iteration (the incoming `vars.number` is irrelevant) and `avg` divides by
the area 1 — and no cell other than `(R,C)` changes; moreover, at any
cell whose content is not numeric, the handler leaves the table untouched
and only zeroes the accumulator on a first iteration (the cell
contributes 0). -/
theorem sumAvgEdit_single_numeric (strtod : List Char → ℚ) (fmtG : ℚ → List Char)
    (cmd : Command) (st : ExecState) (v : CellData)
    (hname : cmd.name = "sum".toList ∨ cmd.name = "avg".toList)
    (h1 : st.sel.curRow = st.sel.rowFrom) (h2 : st.sel.rowFrom = st.sel.rowTo)
    (h3 : st.sel.curCol = st.sel.colFrom) (h4 : st.sel.colFrom = st.sel.colTo)
    (hR : 1 ≤ getIntParam cmd 0) (hC : 1 ≤ getIntParam cmd 1)
    (hcell : getCellValue st.table st.sel.curRow st.sel.curCol = some v)
    (hnum : isValidNumber v = true) :
    sumAvgEdit strtod fmtG cmd st =
      .ok { st with
        table := setCellValue st.table (getIntParam cmd 0).toNat (getIntParam cmd 1).toNat
          (fmtG (strtod v)),
        vars := { st.vars with number := strtod v } } ∧
    (∀ r c, 1 ≤ r → 1 ≤ c →
      r ≠ (getIntParam cmd 0).toNat ∨ c ≠ (getIntParam cmd 1).toNat →
      getCellValue (setCellValue st.table (getIntParam cmd 0).toNat
        (getIntParam cmd 1).toNat (fmtG (strtod v))) r c = getCellValue st.table r c) ∧
    (∀ (st2 : ExecState) (v2 : CellData),
      getCellValue st2.table st2.sel.curRow st2.sel.curCol = some v2 →
      isValidNumber v2 = false →
      sumAvgEdit strtod fmtG cmd st2 =
        .ok { st2 with vars :=
          if st2.sel.curRow = st2.sel.rowFrom ∧ st2.sel.curCol = st2.sel.colFrom then
            { st2.vars with number := 0 }
          else st2.vars }) := by
  have hg : ¬(getIntParam cmd 0 < 1 ∨ getIntParam cmd 1 < 1) := by omega
  refine ⟨?_, ?_, ?_⟩
  · have hfirst : st.sel.curRow = st.sel.rowFrom ∧ st.sel.curCol = st.sel.colFrom := ⟨h1, h3⟩
    have hlast : st.sel.curRow = st.sel.rowTo ∧ st.sel.curCol = st.sel.colTo :=
      ⟨h1.trans h2, h3.trans h4⟩
    have hv : ¬(isValidNumber v = false) := by simp [hnum]
    have harea : ((st.sel.rowTo - st.sel.rowFrom + 1) *
        (st.sel.colTo - st.sel.colFrom + 1) : Nat) = 1 := by
      rw [← h2, ← h4]
      simp
    have hzadd : ({ st.vars with number := 0 } : Variables).number + strtod v = strtod v := by
      show (0 : ℚ) + strtod v = strtod v
      exact zero_add _
    unfold sumAvgEdit
    rw [if_neg hg]
    simp only [if_pos hfirst]
    simp only [hcell]
    simp only [if_neg hv]
    simp only [if_pos hlast]
    simp only [harea]
    rcases hname with hn | hn
    · rw [if_neg (by rw [hn]; decide), hzadd]
    · rw [if_pos (by rw [hn]), hzadd]
      norm_num
  · intro r c hr hc hne
    exact getCellValue_setCellValue_ne st.table _ _ r c _ (by omega) (by omega) hr hc hne
  · intro st2 v2 hcell2 hnum2
    unfold sumAvgEdit
    rw [if_neg hg]
    simp only [hcell2, if_pos hnum2]

/-- Witness for C6: on the 1×1 table `[[5]]` with the selection at
`(1,1)`, `sum [1,1]` writes `fmtG (strtod "5")` to `(1,1)`. -/
theorem sumAvgEdit_single_numeric_witness :
    (("sum".toList = "sum".toList ∨ "sum".toList = "avg".toList) ∧
      (1 : Int) ≤ getIntParam
        { type := CLASSIC_COMMAND, name := "sum".toList, intParams := [1, 1],
          strParams := [] } 0 ∧
      (1 : Int) ≤ getIntParam
        { type := CLASSIC_COMMAND, name := "sum".toList, intParams := [1, 1],
          strParams := [] } 1 ∧
      getCellValue [[['5']]] 1 1 = some ['5'] ∧ isValidNumber ['5'] = true) ∧
    (sumAvgEdit (fun _ => 5) (fun _ => ['5'])
        { type := CLASSIC_COMMAND, name := "sum".toList, intParams := [1, 1], strParams := [] }
        { table := [[['5']]],
          sel := { rowFrom := 1, rowTo := 1, colFrom := 1, colTo := 1, curRow := 1, curCol := 1 },
          vars := createVars createSelection 9 } =
      .ok { table := setCellValue [[['5']]] 1 1 ((fun (_ : ℚ) => ['5']) 5),
            sel := { rowFrom := 1, rowTo := 1, colFrom := 1, colTo := 1, curRow := 1, curCol := 1 },
            vars := { createVars createSelection 9 with number := 5 } }) :=
  ⟨⟨Or.inl rfl, by decide, by decide, by decide, by decide⟩,
    (sumAvgEdit_single_numeric (fun _ => 5) (fun _ => ['5'])
      { type := CLASSIC_COMMAND, name := "sum".toList, intParams := [1, 1], strParams := [] }
      { table := [[['5']]],
        sel := { rowFrom := 1, rowTo := 1, colFrom := 1, colTo := 1, curRow := 1, curCol := 1 },
        vars := createVars createSelection 9 } ['5']
      (Or.inl rfl) rfl rfl rfl rfl (by decide) (by decide) (by decide) (by decide)).1⟩

/-! ### Facts about the dispatcher (claim C5) -/

theorem runCells_cons (g : Nat → Nat → ExecState → Except Err ExecState) (i j : Nat)
    (rest : List (Nat × Nat)) (st : ExecState) :
    runCells g ((i, j) :: rest) st =
      match g i j st with
      | .error e => .error e
      | .ok st2 => runCells g rest st2 := rfl

theorem runCells_append (g : Nat → Nat → ExecState → Except Err ExecState)
    (l1 l2 : List (Nat × Nat)) (st : ExecState) :
    runCells g (l1 ++ l2) st =
      match runCells g l1 st with
      | .error e => .error e
      | .ok st2 => runCells g l2 st2 := by
  induction l1 generalizing st with
  | nil => rfl
  | cons p l1 ih =>
    rcases p with ⟨i, j⟩
    rw [List.cons_append, runCells_cons, runCells_cons]
    cases hres : g i j st with
    | error e => rfl
    | ok st2 => exact ih st2

theorem mutColsLoop_cons (h : ExecState → Except Err ExecState) (i j : Nat)
    (js : List Nat) (st : ExecState) :
    mutColsLoop h i (j :: js) st =
      match h { st with sel := { st.sel with curRow := i, curCol := j } } with
      | .error e => .error e
      | .ok st2 => mutColsLoop h i js st2 := rfl

theorem mutColsLoop_eq_runCells (h : ExecState → Except Err ExecState) (i : Nat)
    (js : List Nat) (st : ExecState) :
    mutColsLoop h i js st =
      runCells
        (fun i' j st' => h { st' with sel := { st'.sel with curRow := i', curCol := j } })
        (js.map (fun j => (i, j))) st := by
  induction js generalizing st with
  | nil => rfl
  | cons j js ih =>
    rw [List.map_cons, mutColsLoop_cons, runCells_cons]
    cases hres : h { st with sel := { st.sel with curRow := i, curCol := j } } with
    | error e => rfl
    | ok st2 => exact ih st2

theorem mutRowsLoop_cons (h : ExecState → Except Err ExecState) (cF cT i : Nat)
    (is' : List Nat) (st : ExecState) :
    mutRowsLoop h cF cT (i :: is') st =
      match mutColsLoop h i (natRange cF cT) st with
      | .error e => .error e
      | .ok st2 => mutRowsLoop h cF cT is' st2 := rfl

theorem mutRowsLoop_eq_runCells (h : ExecState → Except Err ExecState) (cF cT : Nat)
    (is' : List Nat) (st : ExecState) :
    mutRowsLoop h cF cT is' st =
      runCells
        (fun i' j st' => h { st' with sel := { st'.sel with curRow := i', curCol := j } })
        (is'.flatMap (fun i => (natRange cF cT).map (fun j => (i, j)))) st := by
  induction is' generalizing st with
  | nil => rfl
  | cons i is' ih =>
    rw [List.flatMap_cons, runCells_append, mutRowsLoop_cons, mutColsLoop_eq_runCells]
    cases hres : runCells
        (fun i' j st' => h { st' with sel := { st'.sel with curRow := i', curCol := j } })
        ((natRange cF cT).map (fun j => (i, j))) st with
    | error e => rfl
    | ok st2 => exact ih st2

theorem rowMajorCells_mem (sel : Selection) (r c : Nat) :
    (r, c) ∈ rowMajorCells sel ↔
      (sel.rowFrom ≤ r ∧ r ≤ sel.rowTo ∧ sel.colFrom ≤ c ∧ c ≤ sel.colTo) := by
  simp only [rowMajorCells, natRange, List.mem_flatMap, List.mem_map, List.mem_range'_1]
  constructor
  · rintro ⟨i, ⟨hi1, hi2⟩, j, ⟨hj1, hj2⟩, heq⟩
    cases heq
    exact ⟨hi1, by omega, hj1, by omega⟩
  · rintro ⟨h1, h2, h3, h4⟩
    exact ⟨r, ⟨h1, by omega⟩, c, ⟨h3, by omega⟩, rfl⟩

/-- C5: for a command whose name resolves in the catalog, the dispatcher
invokes a selection-type command's handler exactly once on the current
state; a mutation-type command's handler is re-run exactly as the
row-major short-circuit walk `runCells` over the cells `(r, c)` with
`rowFrom ≤ r ≤ rowTo` and `colFrom ≤ c ≤ colTo` (`r` outermost), the
iteration cursor being set to `(r, c)` before each invocation, stopping
at the first error; and an error from a command aborts the remaining
command walk, surfacing that error. -/
theorem processCommands_row_major (catalog : List (List Char × Handler)) (cmd : Command)
    (nm : List Char) (h : Handler) (st : ExecState)
    (hfind : catalog.find? (fun e => e.1 == cmd.name) = some (nm, h)) :
    (cmd.type = SELECTION_COMMAND → applyCommand catalog cmd st = h cmd st) ∧
    (cmd.type = CLASSIC_COMMAND →
      applyCommand catalog cmd st =
        runCells
          (fun i j st' => h cmd { st' with sel := { st'.sel with curRow := i, curCol := j } })
          (rowMajorCells st.sel) st) ∧
    (∀ r c, (r, c) ∈ rowMajorCells st.sel ↔
      (st.sel.rowFrom ≤ r ∧ r ≤ st.sel.rowTo ∧ st.sel.colFrom ≤ c ∧ c ≤ st.sel.colTo)) ∧
    (∀ rest e, applyCommand catalog cmd st = .error e →
      processCommands catalog (cmd :: rest) st = .error e) := by
  refine ⟨?_, ?_, fun r c => rowMajorCells_mem st.sel r c, ?_⟩
  · intro htype
    simp only [applyCommand, hfind]
    rw [if_pos htype]
  · intro htype
    simp only [applyCommand, hfind]
    rw [if_neg (by rw [htype]; decide), mutRowsLoop_eq_runCells]
    rfl
  · intro rest e he
    simp only [processCommands, he]

/-- Witness for C5: the mutation command `drow` (found in the real
catalog), from a state whose selection is rows 1..2, column 1. -/
theorem processCommands_row_major_witness :
    ((commandCatalog (fun _ => 0) (fun _ => [])).find?
        (fun e => e.1 == ("drow".toList : List Char)) = some ("drow".toList, drow)) ∧
    (({ type := CLASSIC_COMMAND, name := "drow".toList, intParams := [],
        strParams := [] } : Command).type = CLASSIC_COMMAND →
      applyCommand (commandCatalog (fun _ => 0) (fun _ => []))
          { type := CLASSIC_COMMAND, name := "drow".toList, intParams := [], strParams := [] }
          { table := [[['a']], [['b']]],
            sel := { rowFrom := 1, rowTo := 2, colFrom := 1, colTo := 1,
                     curRow := 0, curCol := 0 },
            vars := createVars createSelection 0 } =
        runCells
          (fun i j st' => drow
            { type := CLASSIC_COMMAND, name := "drow".toList, intParams := [], strParams := [] }
            { st' with sel := { st'.sel with curRow := i, curCol := j } })
          (rowMajorCells
            { rowFrom := 1, rowTo := 2, colFrom := 1, colTo := 1, curRow := 0, curCol := 0 })
          { table := [[['a']], [['b']]],
            sel := { rowFrom := 1, rowTo := 2, colFrom := 1, colTo := 1,
                     curRow := 0, curCol := 0 },
            vars := createVars createSelection 0 }) :=
  ⟨rfl,
    (processCommands_row_major (commandCatalog (fun _ => 0) (fun _ => []))
      { type := CLASSIC_COMMAND, name := "drow".toList, intParams := [], strParams := [] }
      "drow".toList drow
      { table := [[['a']], [['b']]],
        sel := { rowFrom := 1, rowTo := 2, colFrom := 1, colTo := 1, curRow := 0, curCol := 0 },
        vars := createVars createSelection 0 } rfl).2.1⟩

/-! ### Claim C10: trailing semicolon and the empty-named final command -/

/-- Wherever the bracket loop stops, the stopping position is inside the
string bound and holds the closing bracket or a semicolon. -/
lemma bracketLoop_stop (s : List Char) (n : Nat) :
    ∀ fuel j cmdI paramI ps k cmdI2 paramI2 ps2,
      bracketLoop s n fuel j cmdI paramI ps = some (k, cmdI2, paramI2, ps2) →
      j + k < n ∧ (s.getD (j + k) '\x00' = ']' ∨ s.getD (j + k) '\x00' = ';') := by
  intro fuel
  induction fuel with
  | zero =>
    intro j cmdI paramI ps k cmdI2 paramI2 ps2 h
    simp [bracketLoop] at h
  | succ f ih =>
    intro j cmdI paramI ps k cmdI2 paramI2 ps2 h
    simp only [bracketLoop] at h
    by_cases h1 : n ≤ j
    · rw [if_pos h1] at h
      exact absurd h (by simp)
    · rw [if_neg h1] at h
      by_cases h2 : s.getD j '\x00' = ']' ∨ s.getD j '\x00' = ';'
      · rw [if_pos h2] at h
        simp only [Option.some.injEq, Prod.mk.injEq] at h
        obtain ⟨hk, -, -, -⟩ := h
        rw [← hk]
        exact ⟨by omega, h2⟩
      · rw [if_neg h2] at h
        by_cases h3 : s.getD j '\x00' = ','
        · rw [if_pos h3, Option.map_eq_some'] at h
          obtain ⟨⟨k1, a1, b1, c1⟩, hr, hf⟩ := h
          simp only [Prod.mk.injEq] at hf
          obtain ⟨hk, -, -, -⟩ := hf
          have hrec := ih (j + 1) 0 (paramI + 1) ps k1 a1 b1 c1 hr
          refine ⟨by omega, ?_⟩
          rw [show j + k = j + 1 + k1 by omega]
          exact hrec.2
        · rw [if_neg h3, Option.map_eq_some'] at h
          obtain ⟨⟨k1, a1, b1, c1⟩, hr, hf⟩ := h
          simp only [Prod.mk.injEq] at hf
          obtain ⟨hk, -, -, -⟩ := hf
          have hrec := ih (j + 1) cmdI paramI _ k1 a1 b1 c1 hr
          refine ⟨by omega, ?_⟩
          rw [show j + k = j + 1 + k1 by omega]
          exact hrec.2

/-- Appending a fresh command never triggers the `set-v` rename. -/
lemma addNewCmdToSeq_createCmd (seq : List Command) :
    addNewCmdToSeq seq createCmd = seq ++ [createCmd] := rfl

/-- When no semicolon sits at the current position, the character loop
advances strictly below the bound or the last character is not `;`. -/
lemma parseStep_lt (s : List Char) (n i : Nat) (hi : i < n)
    (hne : s.getD i '\x00' ≠ ';') (hlast : s.getD (n - 1) '\x00' = ';') :
    i + 1 < n := by
  rcases eq_or_lt_of_le (Nat.succ_le_of_lt hi) with heq | hlt
  · exfalso
    apply hne
    rw [show i = n - 1 by omega]
    exact hlast
  · exact hlt

/-- If the script's last character is `;`, every successful run of the
character loop started strictly inside the string ends by appending a
command whose name is empty: the final `;` resets the builder to
`createCmd` and the end-of-string exit appends that fresh record. -/
lemma parseLoop_trailing (s : List Char) (n : Nat)
    (hlast : s.getD (n - 1) '\x00' = ';') :
    ∀ fuel i cmd cmdI paramI seq cmds, i < n →
      parseLoop s n fuel i cmd cmdI paramI seq = some cmds →
      ∃ pre c, cmds = pre ++ [c] ∧ c.name = [] := by
  intro fuel
  induction fuel with
  | zero =>
    intro i cmd cmdI paramI seq cmds hi h
    simp [parseLoop] at h
  | succ f ih =>
    intro i cmd cmdI paramI seq cmds hi h
    simp only [parseLoop] at h
    rw [if_neg (by omega)] at h
    by_cases hsemi : s.getD i '\x00' = ';'
    · rw [if_pos hsemi] at h
      by_cases hin : i + 1 < n
      · exact ih (i + 1) createCmd 0 0 (addNewCmdToSeq seq cmd) cmds hin h
      · have hn1 : n ≤ i + 1 := by omega
        match f, h with
        | 0, h => simp [parseLoop] at h
        | f1 + 1, h =>
          rw [parseLoop, if_pos hn1] at h
          obtain rfl := Option.some.inj h
          exact ⟨addNewCmdToSeq seq cmd, createCmd, addNewCmdToSeq_createCmd _, rfl⟩
    · rw [if_neg hsemi] at h
      have hstep : i + 1 < n := parseStep_lt s n i hi hsemi hlast
      by_cases b2 : s.getD i '\x00' = ' ' ∧ prevCharAt s i ≠ '\\'
      · rw [if_pos b2] at h
        exact ih _ _ _ _ _ _ hstep h
      · rw [if_neg b2] at h
        by_cases b3 : cmdI = 0 ∧ s.getD i '\x00' = '[' ∧
            (isDigitChar (s.getD (i + 1) '\x00') = true ∨ s.getD (i + 1) '\x00' = '_')
        · rw [if_pos b3] at h
          split at h
          · exact absurd h (by simp)
          · rename_i k cmdI2 paramI2 ps2 heq
            by_cases hsc : s.getD (i + 1 + k) '\x00' = ';'
            · rw [if_pos hsc] at h
              exact absurd h (by simp)
            · rw [if_neg hsc] at h
              have hstop := bracketLoop_stop s n (n + 1) (i + 1) cmdI _ _ k cmdI2 paramI2 ps2 heq
              have hbr : s.getD (i + 1 + k) '\x00' = ']' := by
                rcases hstop.2 with hc | hc
                · exact hc
                · exact absurd hc hsc
              have hlt2 : i + 1 + k + 1 < n := by
                rcases eq_or_lt_of_le (Nat.succ_le_of_lt hstop.1) with heq2 | hlt
                · exfalso
                  rw [show i + 1 + k = n - 1 by omega, hlast] at hbr
                  exact absurd hbr (by decide)
                · exact hlt
              exact ih _ _ _ _ _ _ hlt2 h
        · rw [if_neg b3] at h
          by_cases b4 : s.getD i '\x00' = ']' ∧ (s.getD (i + 1) '\x00' = ' ' ∨
              s.getD (i + 1) '\x00' = ';' ∨ s.getD (i + 1) '\x00' = '\x00')
          · rw [if_pos b4] at h
            exact ih _ _ _ _ _ _ hstep h
          · rw [if_neg b4] at h
            by_cases b5 : paramI = 0
            · rw [if_pos b5] at h
              by_cases b6 : cmdI = 0 ∧ s.getD i '\x00' = '['
              · rw [if_pos b6] at h
                exact ih _ _ _ _ _ _ hstep h
              · rw [if_neg b6] at h
                exact ih _ _ _ _ _ _ hstep h
            · rw [if_neg b5] at h
              by_cases b7 : s.getD i '\x00' = '\\' ∧ prevCharAt s i ≠ '\\'
              · rw [if_pos b7] at h
                exact ih _ _ _ _ _ _ hstep h
              · rw [if_neg b7] at h
                exact ih _ _ _ _ _ _ hstep h

/-- `convertParams` keeps the command name. -/
lemma convertParams_name (cmd : Command) : (convertParams cmd).name = cmd.name := rfl

/-- Whenever the parser accepts a script that is empty or ends in `;`,
the resulting list ends with a command whose name is empty. -/
lemma loadCommands_trailing (s : List Char)
    (hs : s = [] ∨ s.getD (s.length - 1) '\x00' = ';') (cmds : List Command)
    (h : loadCommandsFromString s = some cmds) :
    ∃ pre c, cmds = pre ++ [c] ∧ c.name = [] := by
  rcases hs with hs | hlast
  · subst hs
    have hval : loadCommandsFromString [] = some [convertParams createCmd] := rfl
    rw [hval] at h
    obtain rfl := Option.some.inj h
    exact ⟨[], convertParams createCmd, rfl, rfl⟩
  · have hne : s ≠ [] := by
      intro hnil
      rw [hnil] at hlast
      exact absurd hlast (by decide)
    have hpos : 0 < s.length := List.length_pos.mpr hne
    unfold loadCommandsFromString at h
    cases hp : parseLoop s s.length (s.length + 1) 0 createCmd 0 0 [] with
    | none =>
      rw [hp] at h
      simp at h
    | some ps =>
      rw [hp] at h
      obtain rfl := Option.some.inj h
      obtain ⟨pre, c, hps, hname⟩ :=
        parseLoop_trailing s s.length hlast (s.length + 1) 0 createCmd 0 0 [] ps hpos hp
      refine ⟨convertTypesInCommandParams pre, convertParams c, ?_, ?_⟩
      · rw [hps]
        simp [convertTypesInCommandParams]
      · rw [convertParams_name]
        exact hname

/-- No catalog entry has the empty name, so a command with empty name is
never found. -/
lemma commandCatalog_find_empty (strtod : List Char → ℚ) (fmtG : ℚ → List Char) :
    (commandCatalog strtod fmtG).find? (fun e => e.1 == ([] : List Char)) = none := by
  rw [List.find?_eq_none]
  intro x hx
  have hmem := List.of_mem_zip hx
  have hnames : ∀ nm ∈ commandNames, nm ≠ ([] : List Char) := by decide
  simp only [beq_iff_eq]
  exact hnames x.1 hmem.1

/-- Dispatching a command with empty name is the UnknownCommand error. -/
lemma applyCommand_empty_name (strtod : List Char → ℚ) (fmtG : ℚ → List Char)
    (c : Command) (hc : c.name = []) (st : ExecState) :
    applyCommand (commandCatalog strtod fmtG) c st = .error .unknownCommand := by
  unfold applyCommand
  rw [hc, commandCatalog_find_empty]

/-- A command list ending in an empty-named record always makes the
dispatcher fail with some error. -/
lemma processCommands_ends_empty_name (strtod : List Char → ℚ) (fmtG : ℚ → List Char) :
    ∀ (pre : List Command) (c : Command) (st : ExecState), c.name = [] →
      ∃ e, processCommands (commandCatalog strtod fmtG) (pre ++ [c]) st = .error e := by
  intro pre
  induction pre with
  | nil =>
    intro c st hc
    refine ⟨.unknownCommand, ?_⟩
    simp only [List.nil_append, processCommands]
    rw [applyCommand_empty_name strtod fmtG c hc st]
  | cons p ps ih =>
    intro c st hc
    simp only [List.cons_append, processCommands]
    cases hap : applyCommand (commandCatalog strtod fmtG) p st with
    | error e => exact ⟨e, rfl⟩
    | ok st2 => exact ih c st2 hc

set_option maxHeartbeats 1000000 in
/-- C10: for a script that is empty or ends in a trailing `;`, a
successful parse yields a list whose last record has the empty name;
dispatching that record fails with UnknownCommand (its name matches no
catalog entry), the whole run fails with some error, and `main` does not
rewrite the file. -/
theorem trailing_semicolon_unknown_command
    (strtod : List Char → ℚ) (fmtG : ℚ → List Char)
    (s : List Char) (table : Table) (g : Selection) (gnum : ℚ)
    (hs : s = [] ∨ s.getD (s.length - 1) '\x00' = ';') :
    (∀ cmds, loadCommandsFromString s = some cmds →
      ∃ pre c, cmds = pre ++ [c] ∧ c.name = [] ∧
        (∀ st, applyCommand (commandCatalog strtod fmtG) c st = .error .unknownCommand) ∧
        (∀ st, ∃ e, processCommands (commandCatalog strtod fmtG) cmds st = .error e)) ∧
    mainWritesFile (commandCatalog strtod fmtG) s table g gnum = false := by
  constructor
  · intro cmds h
    obtain ⟨pre, c, hcmds, hname⟩ := loadCommands_trailing s hs cmds h
    refine ⟨pre, c, hcmds, hname, fun st => applyCommand_empty_name strtod fmtG c hname st,
      fun st => ?_⟩
    rw [hcmds]
    exact processCommands_ends_empty_name strtod fmtG pre c st hname
  · unfold mainWritesFile
    cases hL : loadCommandsFromString s with
    | none => rfl
    | some cmds =>
      obtain ⟨pre, c, hcmds, hname⟩ := loadCommands_trailing s hs cmds hL
      obtain ⟨e, he⟩ := processCommands_ends_empty_name strtod fmtG pre c
        { table := table, sel := createSelection, vars := createVars g gnum } hname
      rw [hcmds]
      simp [he]

theorem trailing_semicolon_unknown_command_witness :
    (("set x;".toList = [] ∨
        "set x;".toList.getD ("set x;".toList.length - 1) '\x00' = ';') ∧
      mainWritesFile (commandCatalog (fun _ => 0) (fun _ => [])) "set x;".toList
        [[['a']]] createSelection 0 = false) :=
  ⟨Or.inr (by decide),
    (trailing_semicolon_unknown_command (fun _ => 0) (fun _ => []) "set x;".toList
      [[['a']]] createSelection 0 (Or.inr (by decide))).2⟩

end SPS
